import Mathlib

/-!
Verification of the recipe resolution pipeline (recipe-backend).

We shallowly embed the Python source files `utils.py`, `schema_converter.py`
and `recipe_scraper.py` into Lean.  Python's dynamic values are modelled by
the inductive `PyVal`; Python floats are modelled as exact rationals; code
that can raise returns `Except` with the Python exception class name as the
error payload.  The external collaborators (HTTP fetch, the `extruct`
structured-data extractor, the BeautifulSoup text extractor and the LLM
call) are modelled as inputs of a per-request environment, exactly as the
spec treats them (external capabilities).
-/

namespace Saucey

/-- Python dynamic values (as produced by `json.loads`, `extruct` and the
LLM).  Floats are modelled as exact rationals (float rounding is irrelevant
to the verified properties); dicts are string-keyed association lists in
insertion order, mirroring Python dict iteration order. -/
inductive PyVal where
  | none
  | bool (b : Bool)
  | int (n : Int)
  | float (q : Rat)
  | str (s : String)
  | list (xs : List PyVal)
  | dict (kvs : List (String × PyVal))

abbrev PyDict := List (String × PyVal)

/-- Python exception, identified by its class name (message dropped). -/
abbrev PyErr := String

/-- Python truthiness (`bool(x)`). -/
def pyTruthy : PyVal → Bool
  | .none => false
  | .bool b => b
  | .int n => n ≠ 0
  | .float q => q ≠ 0
  | .str s => s ≠ ""
  | .list xs => ¬ xs.isEmpty
  | .dict kvs => ¬ kvs.isEmpty

/-- `x or y` (Python short-circuiting `or` on values). -/
def pyOr (a b : PyVal) : PyVal := if pyTruthy a then a else b

/-- `d.get(k)` on a dict given as an association list: `None` when absent. -/
def pyGet (d : PyDict) (k : String) : PyVal :=
  match d.find? (fun p => p.1 = k) with
  | some p => p.2
  | Option.none => .none

/-- `d.get(k, default)`. -/
def pyGetD (d : PyDict) (k : String) (dflt : PyVal) : PyVal :=
  match d.find? (fun p => p.1 = k) with
  | some p => p.2
  | Option.none => dflt

/-- `k in d` (dict key membership). -/
def hasKey (d : PyDict) (k : String) : Bool := d.any (fun p => p.1 = k)

/-- `d[k] = v`: update in place if the key exists, else append (Python
dicts keep insertion order, and assignment to an existing key keeps its
slot; a real dict holds each key at most once, so replacing the first
occurrence is exact). -/
def dictSet : PyDict → String → PyVal → PyDict
  | [], k, v => [(k, v)]
  | p :: rest, k, v => if p.1 = k then (k, v) :: rest else p :: dictSet rest k v

/-- Number of entries of `d` with key `k` (a real Python dict has at most
one, but the association-list model can express more). -/
def countKey (d : PyDict) (k : String) : Nat :=
  (d.filter (fun p => p.1 = k)).length

/-- `v.get(key, default)` where `v` is dynamically typed: raises
`AttributeError` when `v` is not a dict (Python attribute lookup of `.get`). -/
def pyDotGetD (v : PyVal) (k : String) (dflt : PyVal) : Except PyErr PyVal :=
  match v with
  | .dict kvs => .ok (pyGetD kvs k dflt)
  | _ => .error "AttributeError"

/-- The characters stripped by Python's `str.strip()` (ASCII whitespace;
the rare non-ASCII whitespace code points are irrelevant here).  This is
also the ASCII fragment of the regex class `\s`. -/
def isPyWs (c : Char) : Bool :=
  c = ' ' ∨ c = '\t' ∨ c = '\n' ∨ c = '\r' ∨ c = '\x0b' ∨ c = '\x0c'

def stripList (l : List Char) : List Char :=
  ((l.dropWhile isPyWs).reverse.dropWhile isPyWs).reverse

/-- `s.strip()`. -/
def pyStrip (s : String) : String := ⟨stripList s.data⟩

/-- Digits of a decimal-digit list as a natural number (`int("030") = 30`). -/
def digitsToNat (ds : List Char) : Nat :=
  ds.foldl (fun acc c => acc * 10 + (c.toNat - '0'.toNat)) 0

/-- Decimal rendering of a natural number (`str(n)` for `n ≥ 0`). -/
def natDigits : Nat → Nat → List Char
  | 0, _ => []
  | fuel + 1, n =>
    if n < 10 then [Char.ofNat ('0'.toNat + n)]
    else natDigits fuel (n / 10) ++ [Char.ofNat ('0'.toNat + n % 10)]

def natToStr (n : Nat) : String := ⟨natDigits (n + 1) n⟩

/-- `s.startswith(pre)`. -/
def pyStartsWith (s pre : String) : Bool := pre.data.isPrefixOf s.data

/-- `sep.join(parts)`. -/
def joinWith (sep : String) : List String → String
  | [] => ""
  | [x] => x
  | x :: y :: rest => x ++ sep ++ joinWith sep (y :: rest)

/-- `s.split(sep)` for a one-character separator: split at every
occurrence, keeping empty fragments. -/
def splitCharAux (sep : Char) : List Char → List Char → List (List Char)
  | [], acc => [acc.reverse]
  | c :: rest, acc =>
    if c = sep then acc.reverse :: splitCharAux sep rest []
    else splitCharAux sep rest (c :: acc)

def pySplitChar (s : String) (sep : Char) : List String :=
  (splitCharAux sep s.data []).map (fun cs => ⟨cs⟩)

/-- `str(x)`: best-effort rendering of non-string values (the exact repr of
containers and floats does not matter to any verified property; strings
render as themselves, as in Python). -/
def pyStr : PyVal → String
  | .none => "None"
  | .bool b => if b then "True" else "False"
  | .int n => (if n < 0 then "-" else "") ++ natToStr n.natAbs
  | .float q => (if q.num < 0 then "-" else "") ++ natToStr q.num.natAbs ++ "/" ++ natToStr q.den
  | .str s => s
  | .list _ => "[...]"
  | .dict _ => "\x7b...\x7d"

/-! ## Model of `json.loads` (Python standard library, strict mode)

A recursive-descent parser over the character list, tracking the absolute
character position for error reporting (Python's `JSONDecodeError` reports a
position and a short message; we keep both).  A fuel argument bounds the
recursion, mirroring Python's recursion limit; the initial fuel is large
enough that it is never exhausted on inputs whose nesting is bounded by
their length.  Not modelled (irrelevant to every claim below): the
non-standard `NaN`/`Infinity` literals and lone-surrogate escapes. -/

/-- A `json.JSONDecodeError`: message and character position. -/
structure JsonErr where
  msg : String
  pos : Nat
deriving Repr, DecidableEq

/-- JSON whitespace (`json.decoder.WHITESPACE`). -/
def isJsonWs (c : Char) : Bool := c = ' ' ∨ c = '\t' ∨ c = '\n' ∨ c = '\r'

/-- Skip JSON whitespace, advancing the position. -/
def skipWs : List Char → Nat → List Char × Nat
  | [], p => ([], p)
  | c :: rest, p => if isJsonWs c then skipWs rest (p + 1) else (c :: rest, p)

def hexVal (c : Char) : Option Nat :=
  if '0' ≤ c ∧ c ≤ '9' then some (c.toNat - '0'.toNat)
  else if 'a' ≤ c ∧ c ≤ 'f' then some (c.toNat - 'a'.toNat + 10)
  else if 'A' ≤ c ∧ c ≤ 'F' then some (c.toNat - 'A'.toNat + 10)
  else Option.none

/-- Body of a JSON string, after the opening quote.  Returns the decoded
characters, the remaining input and the position after the closing quote. -/
def parseStringBody : List Char → Nat → Except JsonErr (List Char × List Char × Nat)
  | [], p => .error ⟨"Unterminated string starting at", p⟩
  | '"' :: rest, p => .ok ([], rest, p + 1)
  | '\\' :: esc, p =>
    match esc with
    | 'u' :: a :: b :: c :: d :: rest =>
      match hexVal a, hexVal b, hexVal c, hexVal d with
      | some ha, some hb, some hc, some hd =>
        let code := ((ha * 16 + hb) * 16 + hc) * 16 + hd
        (parseStringBody rest (p + 6)).map
          (fun r => (Char.ofNat code :: r.1, r.2))
      | _, _, _, _ => .error ⟨"Invalid \\uXXXX escape", p + 1⟩
    | e :: rest =>
      let dec : Option Char :=
        if e = '"' then some '"' else if e = '\\' then some '\\'
        else if e = '/' then some '/' else if e = 'b' then some '\x08'
        else if e = 'f' then some '\x0c' else if e = 'n' then some '\n'
        else if e = 'r' then some '\r' else if e = 't' then some '\t'
        else Option.none
      match dec with
      | some c => (parseStringBody rest (p + 2)).map (fun r => (c :: r.1, r.2))
      | Option.none => .error ⟨"Invalid \\escape", p + 1⟩
    | [] => .error ⟨"Unterminated string starting at", p⟩
  | c :: rest, p =>
    if c.toNat < 0x20 then .error ⟨"Invalid control character", p⟩
    else (parseStringBody rest (p + 1)).map (fun r => (c :: r.1, r.2))

/-- The JSON number grammar (`NUMBER_RE` of `json.scanner`):
`-?(0|[1-9][0-9]*)(\.[0-9]+)?([eE][+-]?[0-9]+)?`, greedy; an integer
literal yields a Python `int`, otherwise a `float`. -/
def parseNumber (cs : List Char) (p : Nat) : Except JsonErr (PyVal × List Char × Nat) :=
  let (neg, cs1, p1) : Bool × List Char × Nat :=
    match cs with
    | '-' :: rest => (true, rest, p + 1)
    | _ => (false, cs, p)
  match cs1 with
  | c :: rest =>
    if ¬ c.isDigit then .error ⟨"Expecting value", p⟩
    else
      let (intDs, cs2, p2) : List Char × List Char × Nat :=
        if c = '0' then ([c], rest, p1 + 1)
        else
          let ds := (c :: rest).takeWhile Char.isDigit
          (ds, (c :: rest).drop ds.length, p1 + ds.length)
      let (fracDs, cs3, p3) : List Char × List Char × Nat :=
        match cs2 with
        | '.' :: rest2 =>
          let ds := rest2.takeWhile Char.isDigit
          if ds.isEmpty then ([], cs2, p2)
          else (ds, rest2.drop ds.length, p2 + 1 + ds.length)
        | _ => ([], cs2, p2)
      let (expSgn, expDs, cs4, p4) : Bool × List Char × List Char × Nat :=
        match cs3 with
        | e :: rest3 =>
          if e = 'e' ∨ e = 'E' then
            let (esgn, rest4, q) : Bool × List Char × Nat :=
              match rest3 with
              | '-' :: r => (true, r, p3 + 2)
              | '+' :: r => (false, r, p3 + 2)
              | _ => (false, rest3, p3 + 1)
            let ds := rest4.takeWhile Char.isDigit
            if ds.isEmpty then (false, [], cs3, p3)
            else (esgn, ds, rest4.drop ds.length, q + ds.length)
          else (false, [], cs3, p3)
        | [] => (false, [], cs3, p3)
      if fracDs.isEmpty ∧ expDs.isEmpty then
        let n : Int := Int.ofNat (digitsToNat intDs)
        .ok (.int (if neg then -n else n), cs4, p4)
      else
        let mantNum : Nat := digitsToNat (intDs ++ fracDs)
        let e : Nat := digitsToNat expDs
        let scaled : Rat :=
          if expSgn then mkRat (Int.ofNat mantNum) (10 ^ (fracDs.length + e))
          else mkRat (Int.ofNat (mantNum * 10 ^ e)) (10 ^ fracDs.length)
        .ok (.float (if neg then -scaled else scaled), cs4, p4)
  | [] => .error ⟨"Expecting value", p⟩

mutual

/-- One JSON value at the current input head (no leading whitespace). -/
def parseValue : Nat → List Char → Nat → Except JsonErr (PyVal × List Char × Nat)
  | 0, _, p => .error ⟨"Maximum recursion depth exceeded", p⟩
  | fuel + 1, cs, p =>
    match cs with
    | [] => .error ⟨"Expecting value", p⟩
    | c :: rest =>
      if c = '{' then
        let (cs1, p1) := skipWs rest (p + 1)
        match cs1 with
        | '}' :: rest1 => .ok (.dict [], rest1, p1 + 1)
        | _ => parseMembers fuel cs1 p1 []
      else if c = '[' then
        let (cs1, p1) := skipWs rest (p + 1)
        match cs1 with
        | ']' :: rest1 => .ok (.list [], rest1, p1 + 1)
        | _ => parseElems fuel cs1 p1 []
      else if c = '"' then
        (parseStringBody rest (p + 1)).map (fun r => (.str ⟨r.1⟩, r.2))
      else if c = 't' then
        match cs with
        | 't' :: 'r' :: 'u' :: 'e' :: rest4 => .ok (.bool true, rest4, p + 4)
        | _ => .error ⟨"Expecting value", p⟩
      else if c = 'f' then
        match cs with
        | 'f' :: 'a' :: 'l' :: 's' :: 'e' :: rest5 => .ok (.bool false, rest5, p + 5)
        | _ => .error ⟨"Expecting value", p⟩
      else if c = 'n' then
        match cs with
        | 'n' :: 'u' :: 'l' :: 'l' :: rest4 => .ok (.none, rest4, p + 4)
        | _ => .error ⟨"Expecting value", p⟩
      else if c = '-' ∨ c.isDigit then parseNumber cs p
      else .error ⟨"Expecting value", p⟩

/-- Object members, positioned at a (hoped-for) opening key quote.
Duplicate keys resolve as in Python: the later value wins, the earlier
slot is kept. -/
def parseMembers : Nat → List Char → Nat → PyDict → Except JsonErr (PyVal × List Char × Nat)
  | 0, _, p, _ => .error ⟨"Maximum recursion depth exceeded", p⟩
  | fuel + 1, cs, p, acc =>
    match cs with
    | '"' :: rest => do
      let (key, cs1, p1) ← parseStringBody rest (p + 1)
      let (cs2, p2) := skipWs cs1 p1
      match cs2 with
      | ':' :: rest2 => do
        let (cs3, p3) := skipWs rest2 (p2 + 1)
        let (v, cs4, p4) ← parseValue fuel cs3 p3
        let acc1 := dictSet acc ⟨key⟩ v
        let (cs5, p5) := skipWs cs4 p4
        match cs5 with
        | ',' :: rest5 =>
          let (cs6, p6) := skipWs rest5 (p5 + 1)
          parseMembers fuel cs6 p6 acc1
        | '}' :: rest5 => .ok (.dict acc1, rest5, p5 + 1)
        | _ => .error ⟨"Expecting ',' delimiter", p5⟩
      | _ => .error ⟨"Expecting ':' delimiter", p2⟩
    | _ => .error ⟨"Expecting property name enclosed in double quotes", p⟩

/-- Array elements, positioned at a (hoped-for) first element. -/
def parseElems : Nat → List Char → Nat → List PyVal → Except JsonErr (PyVal × List Char × Nat)
  | 0, _, p, _ => .error ⟨"Maximum recursion depth exceeded", p⟩
  | fuel + 1, cs, p, acc => do
    let (v, cs1, p1) ← parseValue fuel cs p
    let (cs2, p2) := skipWs cs1 p1
    match cs2 with
    | ',' :: rest2 =>
      let (cs3, p3) := skipWs rest2 (p2 + 1)
      parseElems fuel cs3 p3 (acc ++ [v])
    | ']' :: rest2 => .ok (.list (acc ++ [v]), rest2, p2 + 1)
    | _ => .error ⟨"Expecting ',' delimiter", p2⟩

end

/-- `json.loads`: skip leading whitespace, parse one value, and require
that only whitespace follows (`Extra data` otherwise). -/
def loads (s : String) : Except JsonErr PyVal := do
  let cs := s.data
  let (cs0, p0) := skipWs cs 0
  let (v, cs1, p1) ← parseValue (2 * cs.length + 8) cs0 p0
  let (cs2, p2) := skipWs cs1 p1
  match cs2 with
  | [] => .ok v
  | _ => .error ⟨"Extra data", p2⟩

example : loads "\x7b\"a\":1\x7d" = .ok (.dict [("a", .int 1)]) := rfl
example : loads " [1, 2.5, \"x\", null, true] " =
    .ok (.list [.int 1, .float (mkRat 5 2), .str "x", .none, .bool true]) := rfl
example : loads "\x7b\"a\":1,\x7d" =
    .error ⟨"Expecting property name enclosed in double quotes", 7⟩ := rfl
example : loads "garbage" = .error ⟨"Expecting value", 0⟩ := rfl
example : loads "" = .error ⟨"Expecting value", 0⟩ := rfl
example : loads "\x7b\"a\": \x7b\"b\": [1, -2, 3e2]\x7d\x7d" =
    .ok (.dict [("a", .dict [("b", .list [.int 1, .int (-2), .float (mkRat 300 1)])])]) := rfl
example : loads "1 1" = .error ⟨"Extra data", 2⟩ := rfl

/-! ## Constants from `config.py` -/

def DEFAULT_SERVINGS : Int := 2
def DEFAULT_DIFFICULTY : String := "Medium"
def DEFAULT_CATEGORY : String := "Uncategorised"
def DEFAULT_RECIPE_TITLE : String := "Untitled Recipe"
def DEFAULT_INGREDIENT_NAME : String := "Unnamed ingredient"
def DEFAULT_UNKNOWN_INGREDIENT : String := "Unknown Ingredient"

/-! ## `utils.py` -/

/-- A decimal-string parser modelling Python's `float(str)` on the common
shapes (optional surrounding whitespace, optional sign, digits with an
optional fraction and exponent).  The exotic inputs `float` additionally
accepts (`"inf"`, `"nan"`, underscores) are not modelled; all that matters
to the verified claims is that the result is a number or a failure. -/
def parseFloatStr (s : String) : Option Rat :=
  let cs := stripList s.data
  let (neg, cs1) : Bool × List Char :=
    match cs with
    | '-' :: rest => (true, rest)
    | '+' :: rest => (false, rest)
    | _ => (false, cs)
  let intDs := cs1.takeWhile Char.isDigit
  let cs2 := cs1.drop intDs.length
  let (fracDs, cs3) : List Char × List Char :=
    match cs2 with
    | '.' :: rest => (rest.takeWhile Char.isDigit, rest.drop (rest.takeWhile Char.isDigit).length)
    | _ => ([], cs2)
  if intDs.isEmpty ∧ fracDs.isEmpty then Option.none
  else
    let (expOk, expSgn, expDs, cs4) : Bool × Bool × List Char × List Char :=
      match cs3 with
      | e :: rest =>
        if e = 'e' ∨ e = 'E' then
          let (sgn, rest1) : Bool × List Char :=
            match rest with
            | '-' :: r => (true, r)
            | '+' :: r => (false, r)
            | _ => (false, rest)
          let ds := rest1.takeWhile Char.isDigit
          (¬ ds.isEmpty, sgn, ds, rest1.drop ds.length)
        else (false, false, [], cs3)
      | [] => (true, false, [], [])
    if ¬ cs4.isEmpty ∨ (¬ expOk) then Option.none
    else
      let mantNum := digitsToNat (intDs ++ fracDs)
      let e := digitsToNat expDs
      let q :=
        if expSgn then mkRat (Int.ofNat mantNum) (10 ^ (fracDs.length + e))
        else mkRat (Int.ofNat (mantNum * 10 ^ e)) (10 ^ fracDs.length)
      some (if neg then -q else q)

/-- `float(x)` under `except (TypeError, ValueError)`: numbers, booleans and
numeric strings convert; everything else (including `None`, lists, dicts)
fails, which the caller turns into `None`. -/
def pyFloat : PyVal → Option Rat
  | .int n => some (mkRat n 1)
  | .float q => some q
  | .bool b => some (if b then mkRat 1 1 else mkRat 0 1)
  | .str s => parseFloatStr s
  | _ => Option.none

/-- `float(item.get("quantity")) if ... is not None else None` under
`except (TypeError, ValueError): quantity = None` (utils.py lines 13-17). -/
def coerceQuantity (kvs : PyDict) : PyVal :=
  match pyGet kvs "quantity" with
  | .none => .none
  | v => match pyFloat v with
         | some q => .float q
         | Option.none => .none

/-- `unit.strip() or None if isinstance(unit, str) else None`
(utils.py lines 19-23). -/
def coerceUnit (kvs : PyDict) : PyVal :=
  match pyGet kvs "unit" with
  | .str s => (if pyStrip s = "" then .none else .str (pyStrip s))
  | _ => .none

/-- `item.get("item_name") or item.get("name") or ""` (utils.py line 25). -/
def nameOf (kvs : PyDict) : PyVal :=
  pyOr (pyOr (pyGet kvs "item_name") (pyGet kvs "name")) (.str "")

/-- `coerce_to_ingredient` (utils.py lines 7-33).  The one uncaught failure
path of the source is modelled by the `Except` error: when the dict's
`item_name`/`name` resolution produces a truthy non-string, the call
`item_name.strip()` raises `AttributeError` (the surrounding code catches
only `TypeError`/`ValueError`, and only around the float conversion). -/
def coerce_to_ingredient (item : PyVal) : Except PyErr PyDict :=
  match item with
  | .dict kvs =>
    match nameOf kvs with
    | .str s =>
      let nm := if pyStrip s = "" then DEFAULT_INGREDIENT_NAME else pyStrip s
      .ok [("quantity", coerceQuantity kvs), ("unit", coerceUnit kvs), ("item_name", .str nm)]
    | _ => .error "AttributeError"
  | .str s =>
    let nm := if pyStrip s = "" then DEFAULT_INGREDIENT_NAME else pyStrip s
    .ok [("quantity", .none), ("unit", .none), ("item_name", .str nm)]
  | _ => .ok [("quantity", .none), ("unit", .none), ("item_name", .str DEFAULT_UNKNOWN_INGREDIENT)]

/-! ### The code-fence stripper

`re.sub(r"^```(?:json)?\s*|\s*```$", "", raw, flags=IGNORECASE|MULTILINE)`.
We model `re.sub` operationally: scan left to right over the original
string; at each position try the first alternative (at a line start:
three backticks, an optional case-insensitive `json`, then greedy `\s*`),
then the second (greedy `\s*`, three backticks, then a MULTILINE
end-of-line); delete the leftmost match and resume after it.  Only `\s*`
runs adjacent to backticks can participate in a match of either
alternative, so the greedy/backtracking behaviour collapses to the maximal
whitespace run, which is what is implemented. -/

def isBacktick (c : Char) : Bool := c = '`'

/-- Match of alternative 1 at a line start: length of `` ``` (?:json)?\s* ``. -/
def fenceAlt1 (cs : List Char) : Option Nat :=
  match cs with
  | '`' :: '`' :: '`' :: rest =>
    let afterJson : List Char × Nat :=
      match rest with
      | a :: b :: c :: d :: rest2 =>
        if a.toLower = 'j' ∧ b.toLower = 's' ∧ c.toLower = 'o' ∧ d.toLower = 'n'
        then (rest2, 7) else (rest, 3)
      | _ => (rest, 3)
    let ws := afterJson.1.takeWhile isPyWs
    some (afterJson.2 + ws.length)
  | _ => Option.none

/-- Match of alternative 2: length of `` \s*``` `` provided the backticks
are followed by a MULTILINE end of line (end of input or a newline). -/
def fenceAlt2 (cs : List Char) : Option Nat :=
  let ws := cs.takeWhile isPyWs
  match cs.drop ws.length with
  | '`' :: '`' :: '`' :: rest =>
    match rest with
    | [] => some (ws.length + 3)
    | '\n' :: _ => some (ws.length + 3)
    | _ => Option.none
  | _ => Option.none

/-- The scan of `re.sub` for the fence pattern.  `atLineStart` tracks
whether the current position is the string start or follows a newline.
Fuel-driven so applications reduce definitionally; every step consumes at
least one character, so `length + 1` fuel always suffices. -/
def fenceScan : Nat → List Char → Bool → List Char
  | 0, cs, _ => cs
  | fuel + 1, cs, atLineStart =>
    match cs with
    | [] => []
    | c :: rest =>
      match (if atLineStart then fenceAlt1 (c :: rest) else Option.none) with
      | some n =>
        let matched := (c :: rest).take n
        fenceScan fuel ((c :: rest).drop n) (matched.getLast? = some '\n')
      | Option.none =>
        match fenceAlt2 (c :: rest) with
        | some n =>
          let matched := (c :: rest).take n
          fenceScan fuel ((c :: rest).drop n) (matched.getLast? = some '\n')
        | Option.none => c :: fenceScan fuel rest (c = '\n')

def stripFences (raw : String) : String := ⟨fenceScan (raw.data.length + 1) raw.data true⟩

/-- `re.sub(r"//.*", "", s)`: delete from each `//` to (not including) the
end of its line. -/
def rmLineCommentsAux : Nat → List Char → List Char
  | 0, cs => cs
  | fuel + 1, cs =>
    match cs with
    | '/' :: '/' :: rest => rmLineCommentsAux fuel (rest.dropWhile (fun c => c ≠ '\n'))
    | c :: rest => c :: rmLineCommentsAux fuel rest
    | [] => []

def rmLineComments (cs : List Char) : List Char := rmLineCommentsAux (cs.length + 1) cs

/-- Everything after the first `*/` of `cs`, if any. -/
def afterBlockClose : List Char → Option (List Char)
  | '*' :: '/' :: rest => some rest
  | _ :: rest => afterBlockClose rest
  | [] => Option.none

/-- `re.sub(r"/\*.*?\*/", "", s, flags=DOTALL)`: non-greedy, so each `/*`
is deleted up to the nearest following `*/`; a `/*` with no closing `*/`
does not match (the `/` is kept and scanning moves on). -/
def rmBlockCommentsAux : Nat → List Char → List Char
  | 0, cs => cs
  | fuel + 1, cs =>
    match cs with
    | '/' :: '*' :: rest =>
      match afterBlockClose rest with
      | some rest2 => rmBlockCommentsAux fuel rest2
      | Option.none => '/' :: rmBlockCommentsAux fuel ('*' :: rest)
    | c :: rest => c :: rmBlockCommentsAux fuel rest
    | [] => []

def rmBlockComments (cs : List Char) : List Char := rmBlockCommentsAux (cs.length + 1) cs

/-- `re.sub(r",\s*([\]}])", r"\1", s)`: a comma, optional whitespace, then
a closing bracket/brace is replaced by the bracket; scanning resumes after
the match, as `re.sub` does. -/
def rmTrailingCommasAux : Nat → List Char → List Char
  | 0, cs => cs
  | fuel + 1, cs =>
    match cs with
    | ',' :: rest =>
      (match rest.dropWhile isPyWs with
       | b :: tail =>
         if b = ']' ∨ b = '}' then b :: rmTrailingCommasAux fuel tail
         else ',' :: rmTrailingCommasAux fuel rest
       | [] => ',' :: rmTrailingCommasAux fuel rest)
    | c :: rest => c :: rmTrailingCommasAux fuel rest
    | [] => []

def rmTrailingCommas (cs : List Char) : List Char := rmTrailingCommasAux (cs.length + 1) cs

/-- `str.replace(pat, rep)`: replace all non-overlapping occurrences,
scanning left to right (the replacement text is not rescanned). -/
def replaceListAux (pat rep : List Char) : Nat → List Char → List Char
  | 0, cs => cs
  | _ + 1, [] => []
  | fuel + 1, c :: rest =>
    if pat.isPrefixOf (c :: rest) then
      rep ++ replaceListAux pat rep fuel ((c :: rest).drop pat.length)
    else c :: replaceListAux pat rep fuel rest

def pyReplace (s pat rep : String) : String :=
  ⟨replaceListAux pat.data rep.data (s.data.length + 1) s.data⟩

/-- The literal-token replacement chain of `scrub_and_parse_json_string`
(utils.py lines 67-74), in source order. -/
def replaceLiterals (s : String) : String :=
  pyReplace (pyReplace (pyReplace (pyReplace (pyReplace s "None" "null")
    "True" "true") "False" "false") "undefined" "null") "…" "..."

/-- The ordered repair transforms applied on the first parse failure
(utils.py lines 61-74): line comments, block comments, trailing commas,
literal tokens. -/
def applyFixes (s : String) : String :=
  replaceLiterals ⟨rmTrailingCommas (rmBlockComments (rmLineComments s.data))⟩

/-- The failure payload of `scrub_and_parse_json_string`: the final parser
error (re-raised in the `ValueError`) and the excerpt of the attempted text
that the failure path emits, which the source bounds to its first 500
characters (`fixed_string[:500]`). -/
structure ScrubErr where
  excerpt : String
  err : JsonErr
deriving Repr, DecidableEq

/-- `scrub_and_parse_json_string` (utils.py lines 36-82) on a string
argument: strip code fences and whitespace, parse; on failure apply the
repair transforms in order and parse again; if that also fails, fail
carrying the final parser error and the bounded excerpt. -/
def scrub_and_parse_json_string (raw : String) : Except ScrubErr PyVal :=
  let processed := pyStrip (stripFences raw)
  match loads processed with
  | .ok v => .ok v
  | .error _ =>
    let fixed := applyFixes processed
    match loads fixed with
    | .ok v => .ok v
    | .error e => .error ⟨⟨fixed.data.take 500⟩, e⟩

/-- Prefix of `xs` up to and including the last occurrence of `b`
(meaningful when `b ∈ xs`): the span a greedy `.*b` match covers. -/
def takeUpToLast (b : Char) : List Char → List Char
  | [] => []
  | c :: rest => if b ∈ rest then c :: takeUpToLast b rest
                 else if c = b then [c] else []

/-- `re.search(r"(\{.*\}|\[.*\])", text, re.DOTALL)`: the leftmost
position whose character is `{` with a later `}` (preferred alternative)
or `[` with a later `]` starts the match; `.*` is greedy, so the match
extends to the last such closer. -/
def findSpan : List Char → Option (List Char)
  | [] => Option.none
  | c :: rest =>
    if c = '{' ∧ '}' ∈ rest then some ('{' :: takeUpToLast '}' rest)
    else if c = '[' ∧ ']' ∈ rest then some ('[' :: takeUpToLast ']' rest)
    else findSpan rest

/-- Failures of `extract_json_from_text`: both are `ValueError` in Python,
distinguished by their message. -/
inductive ExtractErr where
  | noJsonFound
  | malformed (e : ScrubErr)
deriving Repr, DecidableEq

/-- `extract_json_from_text` (utils.py lines 96-109): find the first
object/array span, `json.loads` it, falling back to
`scrub_and_parse_json_string` on a parse error. -/
def extract_json_from_text (text : String) : Except ExtractErr PyVal :=
  match findSpan text.data with
  | Option.none => .error .noJsonFound
  | some span =>
    match loads ⟨span⟩ with
    | .ok v => .ok v
    | .error _ =>
      match scrub_and_parse_json_string ⟨span⟩ with
      | .ok v => .ok v
      | .error e => .error (.malformed e)

example : stripFences "```json\n\x7b\"a\":1\x7d\n```" = "\x7b\"a\":1\x7d" := rfl
example : scrub_and_parse_json_string "```json\n\x7b\"a\":1\x7d\n```" = .ok (.dict [("a", .int 1)]) := rfl
example : scrub_and_parse_json_string "\x7b\"a\":1,\x7d" = .ok (.dict [("a", .int 1)]) := rfl
example : scrub_and_parse_json_string "\x7b\"a\": None, \"b\": True, \"c\": False\x7d" =
    .ok (.dict [("a", .none), ("b", .bool true), ("c", .bool false)]) := rfl
example : scrub_and_parse_json_string "garbage" =
    .error ⟨"garbage", ⟨"Expecting value", 0⟩⟩ := rfl
example : extract_json_from_text "noise \x7b\"a\": 1\x7d tail" = .ok (.dict [("a", .int 1)]) := rfl
example : extract_json_from_text "no json here" = .error .noJsonFound := rfl
example : coerce_to_ingredient (.dict [("item_name", .int 1)]) = .error "AttributeError" := rfl
example : coerce_to_ingredient (.str "  flour ") =
    .ok [("quantity", .none), ("unit", .none), ("item_name", .str "flour")] := rfl
example : coerce_to_ingredient (.dict [("quantity", .str "2.5"), ("unit", .str " cup "), ("name", .str "milk")]) =
    .ok [("quantity", .float (mkRat 5 2)), ("unit", .str "cup"), ("item_name", .str "milk")] := rfl
example : coerce_to_ingredient (.int 7) =
    .ok [("quantity", .none), ("unit", .none), ("item_name", .str "Unknown Ingredient")] := rfl

/-! ## `schema_converter.py` -/

/-- The leftmost, backtracking match of `(\d+)H`-style patterns at a fixed
start position: the maximal digit run from the head, shrunk greedily until
the next character is `target` (for `target` = `H`/`M` only the full run
can be followed by a non-digit, but the general backtracking semantics of
the regex engine is implemented). -/
def matchDigitsThen (target : Char) (cs : List Char) : Option (List Char) :=
  let run := cs.takeWhile Char.isDigit
  (List.range run.length).reverse.findSome? (fun k1 =>
    let k := k1 + 1
    match (cs.drop k).head? with
    | some c => if c = target then some (cs.take k) else Option.none
    | Option.none => Option.none)

/-- `re.search(r"(\d+)H", s)` (and likewise for `M`): try each start
position left to right, returning the first group matched. -/
def searchNumBefore (target : Char) : List Char → Option (List Char)
  | [] => Option.none
  | c :: rest =>
    match matchDigitsThen target (c :: rest) with
    | some g => some g
    | Option.none => searchNumBefore target rest

/-- `parse_schema_duration` (schema_converter.py lines 14-24).  The source
annotates the argument `str | None` but receives whatever the structured
data held, so it is modelled on `PyVal`: a falsy argument returns `None`;
a truthy non-string raises `AttributeError` at `.startswith`. -/
def parse_schema_duration (v : PyVal) : Except PyErr PyVal :=
  if ¬ pyTruthy v then .ok .none
  else
    match v with
    | .str s =>
      if ¬ pyStartsWith s "PT" then .ok .none
      else
        let hours := searchNumBefore 'H' s.data
        let mins := searchNumBefore 'M' s.data
        let parts : List String :=
          (match hours with
           | some g => [natToStr (digitsToNat g) ++ " hr"]
           | Option.none => []) ++
          (match mins with
           | some g => [natToStr (digitsToNat g) ++ " min"]
           | Option.none => [])
        match parts with
        | [] => .ok .none
        | _ => .ok (.str (joinWith " " parts))
    | _ => .error "AttributeError"

/-- `uuid.uuid4().hex`: 32 lowercase hex digits (`%032x` of a 128-bit
value); the randomness is modelled by the `seed` argument. -/
def hexDigit (n : Nat) : Char :=
  if n < 10 then Char.ofNat ('0'.toNat + n) else Char.ofNat ('a'.toNat + (n - 10))

def uuidHex (seed : Nat) : String :=
  ⟨(List.range 32).reverse.map (fun i => hexDigit (seed / 16 ^ i % 16))⟩

/-- `str(uuid.uuid4())`: the 8-4-4-4-12 hyphenated form of the same digits. -/
def uuidStr (seed : Nat) : String :=
  let h := (uuidHex seed).data
  ⟨h.take 8 ++ '-' :: (h.drop 8).take 4 ++ '-' :: (h.drop 12).take 4 ++
    '-' :: (h.drop 16).take 4 ++ '-' :: h.drop 20⟩

/-- `for x in v`: Python iteration — lists yield elements, strings yield
one-character strings, dicts yield their keys; other values raise
`TypeError`. -/
def pyIter : PyVal → Except PyErr (List PyVal)
  | .list xs => .ok xs
  | .str s => .ok (s.data.map (fun c => .str ⟨[c]⟩))
  | .dict kvs => .ok (kvs.map (fun p => .str p.1))
  | _ => .error "TypeError"

/-- `image[0] if isinstance(image, list) and image else image if
isinstance(image, str) else None` (schema_converter.py lines 54-59). -/
def imageOf : PyVal → PyVal
  | .list (x :: _) => x
  | .str s => .str s
  | _ => .none

/-- `image_url.strip() if image_url else None` (schema_converter.py line
75): a truthy non-string raises `AttributeError` at `.strip`. -/
def imageUrlStep (image_url : PyVal) : Except PyErr PyVal :=
  if ¬ pyTruthy image_url then .ok .none
  else match image_url with
    | .str s => .ok (.str (pyStrip s))
    | _ => .error "AttributeError"

/-- The pure tail of `convert_schema_org_to_internal_recipe`: the record
literal of schema_converter.py lines 64-82, with the infallible field
computations (title, servings, category, difficulty, ingredients mapping,
instructions, nutrition/calories) inlined, and the fallible steps (the
three durations, the ingredient iteration, the image strip) passed in. -/
def assembleRecipe (seed : Nat) (kvs : PyDict) (source_url : String)
    (prep_time cook_time total_time : PyVal) (ingSrc : List PyVal) (imageURL : PyVal) :
    PyDict :=
  [("recipeId", .str (uuidHex seed)),
   ("title", pyOr (pyGet kvs "name") (.str DEFAULT_RECIPE_TITLE)),
   ("servings", pyOr (pyGet kvs "recipeYield") (.int DEFAULT_SERVINGS)),
   ("category", pyOr (pyGet kvs "recipeCategory") (.str DEFAULT_CATEGORY)),
   ("difficulty", pyOr (pyGet kvs "difficulty") (.str DEFAULT_DIFFICULTY)),
   ("ingredients", .list (ingSrc.map (fun ing =>
      .dict [("quantity", .none), ("unit", .none), ("item_name", .str (pyStr ing))]))),
   ("instructions", .list (
      match pyGet kvs "recipeInstructions" with
      | .list steps => steps.map (fun step =>
          match step with
          | .dict skvs => pyGet skvs "text"
          | _ => .str (pyStr step))
      | .str s => (pySplitChar s '.').filterMap (fun sentence =>
          if pyStrip sentence = "" then Option.none else some (.str (pyStrip sentence)))
      | _ => [])),
   ("prepTime", prep_time),
   ("cookTime", cook_time),
   ("totalTime", total_time),
   ("imageURL", imageURL),
   ("calories", (
      match (match pyOr (pyGet kvs "nutrition") (.dict []) with
             | .dict nkvs => pyGet nkvs "calories"
             | _ => .none) with
      | .str s => .str (pyStrip s)
      | _ => .none)),
   ("source", .str "url_import_schema.org"),
   ("originalImportUrl", .str source_url),
   ("isPublic", .bool false),
   ("isSecretRecipe", .bool false),
   ("tipsAndVariations", .none)]

/-- The body of the converter once the candidate is known to be a dict. -/
def convertDict (seed : Nat) (kvs : PyDict) (source_url : String) : Except PyErr PyDict := do
  let prep_time ← parse_schema_duration (pyGet kvs "prepTime")
  let cook_time ← parse_schema_duration (pyGet kvs "cookTime")
  let total_time ← parse_schema_duration (pyGet kvs "totalTime")
  let ingSrc ← pyIter (pyGetD kvs "recipeIngredient" (.list []))
  let imageURL ← imageUrlStep (imageOf (pyGet kvs "image"))
  return assembleRecipe seed kvs source_url prep_time cook_time total_time ingSrc imageURL

/-- `convert_schema_org_to_internal_recipe` (schema_converter.py lines
26-82).  The candidate is a `PyVal` because the locator can hand over a
non-dict (a microdata `properties` value of any shape); the first `.get`
then raises `AttributeError`, as in Python.  Exceptions escape to the
caller; the orchestrator catches them and falls back to the LLM path. -/
def convert_schema_org_to_internal_recipe (seed : Nat) (data : PyVal) (source_url : String) :
    Except PyErr PyDict :=
  match data with
  | .dict kvs => convertDict seed kvs source_url
  | _ => .error "AttributeError"

example : parse_schema_duration (.str "PT1H30M") = .ok (.str "1 hr 30 min") := rfl
example : parse_schema_duration (.str "PT45M") = .ok (.str "45 min") := rfl
example : parse_schema_duration (.str "PT2H") = .ok (.str "2 hr") := rfl
example : parse_schema_duration (.str "") = .ok .none := rfl
example : parse_schema_duration .none = .ok .none := rfl
example : parse_schema_duration (.str "garbage") = .ok .none := rfl
example : parse_schema_duration (.str "PT") = .ok .none := rfl
example : parse_schema_duration (.int 5) = .error "AttributeError" := rfl
example : uuidHex 0 = "00000000000000000000000000000000" := rfl
example : uuidStr 255 = "00000000-0000-0000-0000-0000000000ff" := rfl
example : convert_schema_org_to_internal_recipe 0 (.dict [("recipeIngredient", .int 1)]) "u"
    = .error "TypeError" := rfl
example : convert_schema_org_to_internal_recipe 0 (.dict [("recipeIngredient", .none)]) "u"
    = .error "TypeError" := rfl
example : convert_schema_org_to_internal_recipe 0 (.dict [("prepTime", .int 5)]) "u"
    = .error "AttributeError" := rfl
example : convert_schema_org_to_internal_recipe 0 (.dict [("image", .list [.int 3])]) "u"
    = .error "AttributeError" := rfl
example :
    convert_schema_org_to_internal_recipe 1
      (.dict [("name", .str "Cake"), ("recipeIngredient", .list [.str "2 eggs"]),
              ("recipeInstructions", .str "Mix. Bake."), ("prepTime", .str "PT10M")]) "http://u"
    = .ok [
      ("recipeId", .str "00000000000000000000000000000001"),
      ("title", .str "Cake"),
      ("servings", .int 2),
      ("category", .str "Uncategorised"),
      ("difficulty", .str "Medium"),
      ("ingredients", .list [.dict [("quantity", .none), ("unit", .none), ("item_name", .str "2 eggs")]]),
      ("instructions", .list [.str "Mix", .str "Bake"]),
      ("prepTime", .str "10 min"),
      ("cookTime", .none),
      ("totalTime", .none),
      ("imageURL", .none),
      ("calories", .none),
      ("source", .str "url_import_schema.org"),
      ("originalImportUrl", .str "http://u"),
      ("isPublic", .bool false),
      ("isSecretRecipe", .bool false),
      ("tipsAndVariations", .none)] := rfl

/-! ## `recipe_scraper.py`

The orchestrator `parse_recipe_from_url` composes external collaborators
(the HTTP fetch, the `extruct` structured-data extractor, the
BeautifulSoup-based `extract_relevant_text_from_html`, and the LLM call)
with decision logic from the source.  The collaborators' outcomes for the
one request under consideration are inputs of a `ScrapeEnv`; the decision
logic is embedded verbatim.  The function returns its result together with
a Boolean recording whether the LLM capability was invoked. -/

/-- `'Recipe' == t` / `'Recipe' in t` as used in the JSON-LD scan: a string
equal to `Recipe`, or a list with an element equal to the string
`Recipe` (Python `in` compares elements with `==`; a non-string element
never equals `'Recipe'`). -/
def typeMatchesRecipe : PyVal → Bool
  | .str s => s = "Recipe"
  | .list xs => xs.any (fun x => match x with | .str s => s = "Recipe" | _ => false)
  | _ => false

/-- Inner loop over a `@graph` container (recipe_scraper.py lines 143-146):
each entry's `@type` is read with `.get`, which raises on a non-dict entry;
the first `Recipe`-typed entry wins. -/
def scanGraph : List PyVal → Except PyErr (Option PyVal)
  | [] => .ok Option.none
  | g :: rest => do
    let t ← pyDotGetD g "@type" (.list [])
    if typeMatchesRecipe t then .ok (some g) else scanGraph rest

/-- JSON-LD loop (recipe_scraper.py lines 138-147): per block, the direct
`@type` is checked first; only if it does not match is a list-valued
`@graph` scanned; the first match stops the whole scan.  An exception
anywhere (a non-dict block or graph entry) aborts the scan; the
orchestrator's `try` turns it into "nothing found". -/
def scanJsonLd : List PyVal → Except PyErr (Option PyVal)
  | [] => .ok Option.none
  | item :: rest => do
    let t ← pyDotGetD item "@type" (.list [])
    if typeMatchesRecipe t then .ok (some item)
    else
      match item with
      | .dict kvs =>
        if hasKey kvs "@graph" then
          match pyGet kvs "@graph" with
          | .list graph => do
            match ← scanGraph graph with
            | some r => .ok (some r)
            | Option.none => scanJsonLd rest
          | _ => scanJsonLd rest
        else scanJsonLd rest
      | _ => scanJsonLd rest

/-- `item_type.endswith('/Recipe')`. -/
def endsWithRecipe (s : String) : Bool := s.data.reverse.take 7 = "/Recipe".data.reverse

/-- Microdata loop (recipe_scraper.py lines 150-156): a string `type`
ending in `/Recipe` wins and its `properties` value (default `{}`) is the
candidate. -/
def scanMicrodata : List PyVal → Except PyErr (Option PyVal)
  | [] => .ok Option.none
  | item :: rest => do
    let t ← pyDotGetD item "type" (.str "")
    match t with
    | .str s =>
      if endsWithRecipe s then do
        let props ← pyDotGetD item "properties" (.dict [])
        .ok (some props)
      else scanMicrodata rest
    | _ => scanMicrodata rest

/-- The whole structured-data locator step (recipe_scraper.py lines
128-159): run `extruct` (whose own failure is an exception), scan JSON-LD,
then microdata only if JSON-LD found nothing; the enclosing `try/except`
swallows any exception into `None`. -/
def locateStructured (extructResult : Except PyErr (List PyVal × List PyVal)) : Option PyVal :=
  match (do
    let (jsonLd, microdata) ← extructResult
    match ← scanJsonLd jsonLd with
    | some r => Except.ok (some r)
    | Option.none => scanMicrodata microdata : Except PyErr (Option PyVal)) with
  | .ok r => r
  | .error _ => Option.none

/-- Outcome of the LLM call
`extract_recipe_from_text_content_for_url_scrape`.

Modelled from the spec: `recipe_scraper.py` imports this function from
`gemini_processors`, but no definition of it exists anywhere in the
repository; per the spec (§4.5 step 6, §6) it is the LLM text-extraction
capability: it calls the generative model on the page text and returns the
repair-parsed value, or fails with a service error.  `caught` failures are
the `ConnectionError`/`ValueError` classes the orchestrator re-raises
as-is; `uncaught` failures are any other exception class, wrapped by the
orchestrator in `ConnectionAbortedError`. -/
inductive LlmOutcome where
  | ok (v : PyVal)
  | connOrValueError (msg : String)
  | otherError (msg : String)

/-- The per-request outcomes of the external collaborators. -/
structure ScrapeEnv where
  /-- `fetch_url_content`: the decoded page, or a `ConnectionError` message. -/
  fetch : Except String String
  /-- `extruct.extract`: the JSON-LD blocks and the microdata items, or an
  exception. -/
  extructResult : Except PyErr (List PyVal × List PyVal)
  /-- `extract_relevant_text_from_html(html_content)`: the text excerpt. -/
  pageText : String
  /-- Modelled from the spec: the result of the missing LLM capability. -/
  llm : LlmOutcome
  /-- Randomness for `uuid.uuid4()`. -/
  seed : Nat

/-- Failures of `parse_recipe_from_url`, by raise site. -/
inductive ScrapeErr where
  | invalidUrl
  | fetchFailed (msg : String)
  | noExtractableContent
  | aiInvalidData
  | aiFailed (msg : String)
  | aiUnhandled (msg : String)
deriving Repr, DecidableEq

/-- The post-processing of a truthy LLM dict (recipe_scraper.py lines
189-194): assign `recipeId` when absent or falsy, set the fallback
`source`, attach `originalImportUrl`, and attach
`userModificationInstructions` when instructions were supplied and the key
is not already present. -/
def llmPost (kvs : PyDict) (url : String) (user_instructions : Option String) (seed : Nat) :
    PyDict :=
  let r1 := if ¬ pyTruthy (pyGet kvs "recipeId")
            then dictSet kvs "recipeId" (.str (uuidStr seed)) else kvs
  let r2 := dictSet r1 "source" (.str "url_scrape_gemini_fallback")
  let r3 := dictSet r2 "originalImportUrl" (.str url)
  match user_instructions with
  | some instr =>
    if instr ≠ "" ∧ ¬ hasKey r3 "userModificationInstructions"
    then dictSet r3 "userModificationInstructions" (.str (pyStrip instr)) else r3
  | Option.none => r3

/-- The LLM fallback branch (recipe_scraper.py lines 170-206), reached when
no structured candidate was found or its conversion raised. -/
def geminiFallback (url : String) (env : ScrapeEnv) (user_instructions : Option String) :
    Except ScrapeErr PyDict × Bool :=
  if pyStrip env.pageText = "" then (.error .noExtractableContent, false)
  else
    match env.llm with
    | .ok v =>
      if pyTruthy v then
        match v with
        | .dict kvs => (.ok (llmPost kvs url user_instructions env.seed), true)
        | _ => (.error .aiInvalidData, true)
      else (.error .aiInvalidData, true)
    | .connOrValueError msg => (.error (.aiFailed msg), true)
    | .otherError msg => (.error (.aiUnhandled msg), true)

/-- `parse_recipe_from_url` (recipe_scraper.py lines 108-206).  The Boolean
of the result records whether the LLM capability was invoked during the
request. -/
def parse_recipe_from_url (url : String) (env : ScrapeEnv) (user_instructions : Option String) :
    Except ScrapeErr PyDict × Bool :=
  if ¬ (pyStartsWith url "http://" ∨ pyStartsWith url "https://") then
    (.error .invalidUrl, false)
  else
    match env.fetch with
    | .error msg => (.error (.fetchFailed msg), false)
    | .ok _ =>
      match locateStructured env.extructResult with
      | some candidate =>
        -- `if recipe_schema_data:` (recipe_scraper.py line 161): only a
        -- truthy candidate is converted; a falsy one (e.g. an empty
        -- microdata `properties` dict) falls through to the LLM path.
        if pyTruthy candidate then
          match convert_schema_org_to_internal_recipe env.seed candidate url with
          | .ok internal =>
            let internal1 :=
              match user_instructions with
              | some instr =>
                if instr ≠ "" ∧ ¬ internal.isEmpty
                then dictSet internal "userModificationInstructions" (.str (pyStrip instr))
                else internal
              | Option.none => internal
            (.ok internal1, false)
          | .error _ => geminiFallback url env user_instructions
        else geminiFallback url env user_instructions
      | Option.none => geminiFallback url env user_instructions

example :
    scanJsonLd [.dict [("@type", .str "Article")], .dict [("@type", .list [.str "Recipe"])]]
    = .ok (some (.dict [("@type", .list [.str "Recipe"])])) := rfl
example :
    scanJsonLd [.dict [("@type", .str "Article"),
                       ("@graph", .list [.dict [("@type", .str "WebSite")],
                                         .dict [("@type", .str "Recipe"), ("name", .str "G")]])]]
    = .ok (some (.dict [("@type", .str "Recipe"), ("name", .str "G")])) := rfl
example : scanMicrodata [.dict [("type", .str "http://schema.org/Recipe"),
                                ("properties", .dict [("name", .str "M")])]]
    = .ok (some (.dict [("name", .str "M")])) := rfl
example : locateStructured (.error "ExtructFailure") = Option.none := rfl
example : locateStructured (.ok ([.int 3], [])) = Option.none := rfl
example :
    locateStructured (.ok ([], [.dict [("type", .str "https://schema.org/Recipe"),
        ("properties", .dict [])]])) = some (.dict []) := rfl
example :
    parse_recipe_from_url "http://w"
      ⟨.ok "<html></html>",
       .ok ([], [.dict [("type", .str "https://schema.org/Recipe"),
                        ("properties", .dict [])]]),
       "", .ok (.dict [("title", .str "T")]), 0⟩ Option.none
      = (.error .noExtractableContent, false) := rfl

example : pyOr (.str "") (.str "d") = .str "d" := rfl

/-! ## Claim C7: declarative first-match semantics of the locator -/

/-- The `@type` of a JSON-LD entity as the scan reads it
(`item.get('@type', [])`; only used on dict-shaped entities). -/
def blockType : PyVal → PyVal
  | .dict kvs => pyGetD kvs "@type" (.list [])
  | _ => .list []

/-- The entities nested in a block's `@graph` container, when that key is
present with a list value (recipe_scraper.py line 142). -/
def graphItems : PyVal → List PyVal
  | .dict kvs =>
    if hasKey kvs "@graph" then
      match pyGet kvs "@graph" with
      | .list xs => xs
      | _ => []
    else []
  | _ => []

/-- The candidate a single JSON-LD block contributes: itself when directly
`Recipe`-typed, else the first `Recipe`-typed entity of its `@graph`. -/
def blockCandidate (item : PyVal) : Option PyVal :=
  if typeMatchesRecipe (blockType item) then some item
  else (graphItems item).find? (fun g => typeMatchesRecipe (blockType g))

/-- The `type` of a microdata item (`item.get('type', "")`). -/
def blockTypeMd : PyVal → PyVal
  | .dict kvs => pyGetD kvs "type" (.str "")
  | _ => .str ""

/-- The microdata candidate of an item: its `properties` map when its
`type` is a string ending in `/Recipe`. -/
def microCandidate (item : PyVal) : Option PyVal :=
  match blockTypeMd item with
  | .str s =>
    if endsWithRecipe s then
      some (match item with
            | .dict kvs => pyGetD kvs "properties" (.dict [])
            | _ => .dict [])
    else Option.none
  | _ => Option.none

/-- Every scanned entity is dict-shaped (what `extruct` produces; a
non-dict raises inside the scan and the orchestrator treats the whole scan
as "nothing found"). -/
def isDictVal (v : PyVal) : Prop := ∃ kvs, v = .dict kvs

def WellFormedLd (items : List PyVal) : Prop :=
  ∀ item ∈ items, isDictVal item ∧ ∀ g ∈ graphItems item, isDictVal g

/-! ## Shared lemmas -/

theorem exceptBindOk {ε α β : Type} (a : α) (f : α → Except ε β) :
    (Except.ok a : Except ε α) >>= f = f a := rfl

theorem exceptBindErr {ε α β : Type} (e : ε) (f : α → Except ε β) :
    (Except.error e : Except ε α) >>= f = Except.error e := rfl

theorem pyGet_dictSet_self (d : PyDict) (k : String) (v : PyVal) :
    pyGet (dictSet d k v) k = v := by
  induction d with
  | nil => simp [dictSet, pyGet, List.find?]
  | cons p rest ih =>
    by_cases h : p.1 = k
    · simp [dictSet, h, pyGet, List.find?]
    · simp only [dictSet, h, if_false, ite_false]
      simp only [pyGet, List.find?] at ih ⊢
      simp [h, ih]

theorem pyGet_dictSet_ne (d : PyDict) (k k2 : String) (v : PyVal) (h : k2 ≠ k) :
    pyGet (dictSet d k v) k2 = pyGet d k2 := by
  induction d with
  | nil => simp [dictSet, pyGet, List.find?, Ne.symm h]
  | cons p rest ih =>
    by_cases hp : p.1 = k
    · subst hp
      simp [dictSet, pyGet, List.find?, Ne.symm h]
    · simp only [dictSet, hp, ite_false]
      by_cases hp2 : p.1 = k2
      · simp [pyGet, List.find?, hp2]
      · simp only [pyGet, List.find?] at ih ⊢
        simp [hp2, ih]

theorem countKey_dictSet_ne (d : PyDict) (k k2 : String) (v : PyVal) (h : k2 ≠ k) :
    countKey (dictSet d k v) k2 = countKey d k2 := by
  induction d with
  | nil => simp [dictSet, countKey, Ne.symm h]
  | cons p rest ih =>
    by_cases hp : p.1 = k
    · subst hp
      simp only [dictSet, if_pos rfl]
      simp [countKey, Ne.symm h]
    · simp only [dictSet, hp, ite_false]
      by_cases hp2 : p.1 = k2
      · simp only [countKey, List.filter] at ih ⊢
        simp only [hp2] at *
        simp_all
      · simp only [countKey, List.filter] at ih ⊢
        simp_all

theorem countKey_dictSet_nodup (d : PyDict) (k : String) (v : PyVal)
    (h : (d.map Prod.fst).Nodup) : countKey (dictSet d k v) k = 1 := by
  induction d with
  | nil => simp [dictSet, countKey]
  | cons p rest ih =>
    simp only [List.map_cons, List.nodup_cons] at h
    by_cases hp : p.1 = k
    · subst hp
      simp only [dictSet, if_pos rfl]
      have hrest : countKey rest p.1 = 0 := by
        simp only [countKey, List.length_eq_zero, List.filter_eq_nil_iff]
        intro q hq
        have : q.1 ∈ rest.map Prod.fst := List.mem_map_of_mem Prod.fst hq
        simp only [decide_eq_true_eq]
        intro hcontra
        exact h.1 (hcontra ▸ this)
      simp [countKey, List.filter] at hrest ⊢
      simpa [countKey] using hrest
    · simp only [dictSet, hp, ite_false]
      have := ih h.2
      simp [countKey, List.filter, hp] at this ⊢
      simpa using this

theorem keys_dictSet_sub (d : PyDict) (k : String) (v : PyVal) (x : String)
    (h : x ∈ (dictSet d k v).map Prod.fst) : x ∈ d.map Prod.fst ∨ x = k := by
  induction d with
  | nil => simp [dictSet] at h; simp [h]
  | cons p rest ih =>
    simp only [dictSet] at h
    by_cases hp : p.1 = k
    · rw [if_pos hp] at h
      simp only [List.map_cons, List.mem_cons] at h
      rcases h with h1 | h1
      · right; exact h1
      · left
        simp only [List.map_cons, List.mem_cons]
        right; exact h1
    · rw [if_neg hp] at h
      simp only [List.map_cons, List.mem_cons] at h
      rcases h with h1 | h1
      · left
        simp only [List.map_cons, List.mem_cons]
        left; exact h1
      · rcases ih h1 with h2 | h2
        · left
          simp only [List.map_cons, List.mem_cons]
          right; exact h2
        · right; exact h2

theorem nodupKeys_dictSet (d : PyDict) (k : String) (v : PyVal)
    (h : (d.map Prod.fst).Nodup) : ((dictSet d k v).map Prod.fst).Nodup := by
  induction d with
  | nil => simp [dictSet]
  | cons p rest ih =>
    simp only [List.map_cons, List.nodup_cons] at h
    simp only [dictSet]
    by_cases hp : p.1 = k
    · rw [if_pos hp]
      simp only [List.map_cons, List.nodup_cons]
      exact ⟨hp ▸ h.1, h.2⟩
    · rw [if_neg hp]
      simp only [List.map_cons, List.nodup_cons]
      refine ⟨?_, ih h.2⟩
      intro hmem
      rcases keys_dictSet_sub rest k v p.1 hmem with h1 | h1
      · exact h.1 h1
      · exact hp h1

theorem dropWhile_head_not (p : Char → Bool) (l : List Char) (c : Char)
    (h : (l.dropWhile p).head? = some c) : p c = false := by
  induction l with
  | nil => simp [List.dropWhile] at h
  | cons a tl ih =>
    by_cases ha : p a
    · simp only [List.dropWhile, ha] at h
      exact ih h
    · simp only [List.dropWhile, ha] at h
      simp only [Bool.false_eq_true, if_false, List.head?_cons, Option.some.injEq] at h
      subst h
      simpa using ha

theorem dropWhile_getLast_eq (p : Char → Bool) (l : List Char)
    (h : l.dropWhile p ≠ []) : (l.dropWhile p).getLast? = l.getLast? := by
  induction l with
  | nil => simp [List.dropWhile] at h
  | cons a tl ih =>
    by_cases ha : p a
    · simp only [List.dropWhile, ha, if_true] at h ⊢
      have htl : tl ≠ [] := by
        intro hcontra
        subst hcontra
        simp [List.dropWhile] at h
      cases tl with
      | nil => exact absurd rfl htl
      | cons b tl2 =>
        rw [ih h, List.getLast?_cons_cons]
    · simp [List.dropWhile, ha]

/-- A stripped string starts with a non-whitespace character. -/
theorem stripList_head_not_ws (l : List Char) (c : Char)
    (h : (stripList l).head? = some c) : isPyWs c = false := by
  unfold stripList at h
  rw [List.head?_reverse] at h
  have hne : (l.dropWhile isPyWs).reverse.dropWhile isPyWs ≠ [] := by
    intro hcontra
    rw [hcontra] at h
    simp at h
  rw [dropWhile_getLast_eq isPyWs _ hne] at h
  rw [List.getLast?_reverse] at h
  exact dropWhile_head_not isPyWs l c h

/-- A stripped string ends with a non-whitespace character. -/
theorem stripList_getLast_not_ws (l : List Char) (c : Char)
    (h : (stripList l).getLast? = some c) : isPyWs c = false := by
  unfold stripList at h
  rw [List.getLast?_reverse] at h
  exact dropWhile_head_not isPyWs _ c h

/-- "Trimmed": no leading and no trailing strip-whitespace. -/
def noWsEnds (s : String) : Prop :=
  (∀ c, s.data.head? = some c → isPyWs c = false)
  ∧ (∀ c, s.data.getLast? = some c → isPyWs c = false)

theorem pyStrip_noWsEnds (s : String) : noWsEnds (pyStrip s) :=
  ⟨fun c h => stripList_head_not_ws s.data c h,
   fun c h => stripList_getLast_not_ws s.data c h⟩

theorem uuidHex_ne_empty (seed : Nat) : uuidHex seed ≠ "" := by
  intro h
  have : (uuidHex seed).data = [] := congrArg String.data h
  rw [uuidHex] at this
  simp at this

theorem uuidStr_ne_empty (seed : Nat) : uuidStr seed ≠ "" := by
  intro h
  have hd : (uuidStr seed).data = [] := congrArg String.data h
  rw [uuidStr] at hd
  cases hh : ((uuidHex seed).data.take 8) with
  | nil => simp [hh] at hd
  | cons a tl => simp [hh] at hd

/-! ## Claim C3 -/

/-- C3: `parse_schema_duration` maps `"PT1H30M"` to `"1 hr 30 min"`,
`"PT45M"` to `"45 min"`, `"PT2H"` to `"2 hr"`; it returns `None` without
raising for `""`, for `None`, for `"garbage"`, and for every string input
carrying neither an hours token nor a minutes token. -/
theorem claim_C3_duration_parsing :
    parse_schema_duration (.str "PT1H30M") = .ok (.str "1 hr 30 min")
    ∧ parse_schema_duration (.str "PT45M") = .ok (.str "45 min")
    ∧ parse_schema_duration (.str "PT2H") = .ok (.str "2 hr")
    ∧ parse_schema_duration (.str "") = .ok .none
    ∧ parse_schema_duration .none = .ok .none
    ∧ parse_schema_duration (.str "garbage") = .ok .none
    ∧ (∀ s : String, searchNumBefore 'H' s.data = Option.none →
        searchNumBefore 'M' s.data = Option.none →
        parse_schema_duration (.str s) = .ok .none) := by
  refine ⟨rfl, rfl, rfl, rfl, rfl, rfl, ?_⟩
  intro s hH hM
  cases ht : pyTruthy (.str s) with
  | false => simp [parse_schema_duration, ht]
  | true =>
    cases hp : pyStartsWith s "PT" with
    | false => simp [parse_schema_duration, ht, hp]
    | true => simp [parse_schema_duration, ht, hp, hH, hM]

/-- Witness for C3: the universally quantified conjunct applied to a
concrete string with neither token. -/
theorem claim_C3_duration_parsing_witness :
    parse_schema_duration (.str "PTXY") = .ok .none :=
  claim_C3_duration_parsing.2.2.2.2.2.2 "PTXY" rfl rfl

/-! ## Claim C4 -/

/-- C4: `scrub_and_parse_json_string` first strips code fences and
whitespace and parses directly; on parse failure it applies, in order, the
repair transforms (line comments, block comments, trailing commas,
language-literal tokens) and parses again; a fenced json block containing
`{"a":1}` parses, `{"a":1,}` repairs by dropping the trailing comma, and
`None`/`True`/`False` tokens repair to `null`/`true`/`false`. -/
theorem claim_C4_json_repair :
    (∀ s v, loads (pyStrip (stripFences s)) = .ok v →
       scrub_and_parse_json_string s = .ok v)
    ∧ (∀ s e, loads (pyStrip (stripFences s)) = .error e →
        scrub_and_parse_json_string s =
          (match loads (applyFixes (pyStrip (stripFences s))) with
           | .ok v => .ok v
           | .error e2 =>
             .error ⟨⟨(applyFixes (pyStrip (stripFences s))).data.take 500⟩, e2⟩))
    ∧ scrub_and_parse_json_string "```json\n\x7b\"a\":1\x7d\n```" = .ok (.dict [("a", .int 1)])
    ∧ scrub_and_parse_json_string "\x7b\"a\":1,\x7d" = .ok (.dict [("a", .int 1)])
    ∧ scrub_and_parse_json_string "\x7b\"a\": None, \"b\": True, \"c\": False\x7d" =
        .ok (.dict [("a", .none), ("b", .bool true), ("c", .bool false)]) := by
  refine ⟨?_, ?_, rfl, rfl, rfl⟩
  · intro s v h
    simp only [scrub_and_parse_json_string]
    rw [h]
  · intro s e h
    simp only [scrub_and_parse_json_string]
    rw [h]

/-- Witness for C4: both implications applied at concrete inputs. -/
theorem claim_C4_json_repair_witness :
    scrub_and_parse_json_string "7" = .ok (.int 7)
    ∧ scrub_and_parse_json_string "oops" =
        .error ⟨"oops", ⟨"Expecting value", 0⟩⟩ :=
  ⟨claim_C4_json_repair.1 "7" (.int 7) rfl,
   claim_C4_json_repair.2.1 "oops" ⟨"Expecting value", 0⟩ rfl⟩

/-! ## Claim C5 -/

/-- C5 counterexample: when both parses of `"garbage"` fail, the failure's
excerpt is `"garbage"` — exactly the full attempted text (the source logs
`fixed_string[:500]`, which is the whole string whenever it has at most
500 characters), so "never carries the full attempted text" is false. -/
theorem claim_C5_excerpt_counterexample :
    applyFixes (pyStrip (stripFences "garbage")) = "garbage"
    ∧ scrub_and_parse_json_string "garbage" =
        .error ⟨"garbage", ⟨"Expecting value", 0⟩⟩ :=
  ⟨rfl, rfl⟩

/-- C5 (amended): whenever both the direct parse and the repaired parse
fail, the failure carries the final parser error together with the excerpt
`fixed[:500]` of the attempted text — at most 500 characters, hence the
full attempted text exactly when that text has at most 500 characters. -/
theorem claim_C5_excerpt_amended (s : String) (e : ScrubErr)
    (h : scrub_and_parse_json_string s = .error e) :
    loads (applyFixes (pyStrip (stripFences s))) = .error e.err
    ∧ e.excerpt.data = (applyFixes (pyStrip (stripFences s))).data.take 500
    ∧ e.excerpt.length ≤ 500 := by
  simp only [scrub_and_parse_json_string] at h
  cases h1 : loads (pyStrip (stripFences s)) with
  | ok v => rw [h1] at h; exact absurd h (by simp)
  | error e1 =>
    rw [h1] at h
    cases h2 : loads (applyFixes (pyStrip (stripFences s))) with
    | ok v =>
      rw [h2] at h
      exact absurd h (by simp)
    | error e2 =>
      simp only [h2, Except.error.injEq] at h
      subst h
      refine ⟨rfl, rfl, ?_⟩
      show (String.mk ((applyFixes (pyStrip (stripFences s))).data.take 500)).length ≤ 500
      simp only [String.length]
      rw [List.length_take]
      exact min_le_left _ _

/-- Witness for C5 (amended): applied at the concrete failing input. -/
theorem claim_C5_excerpt_amended_witness :
    loads (applyFixes (pyStrip (stripFences "oh no"))) =
        .error ⟨"Expecting value", 0⟩
    ∧ ("oh no" : String).data = (applyFixes (pyStrip (stripFences "oh no"))).data.take 500
    ∧ ("oh no" : String).length ≤ 500 :=
  claim_C5_excerpt_amended "oh no" ⟨"oh no", ⟨"Expecting value", 0⟩⟩ rfl

/-! ## Claim C2 -/

/-- A duration-typed field value the converter survives: falsy (skipped) or
a string (parsed). -/
def durationFieldOk (v : PyVal) : Prop := pyTruthy v = false ∨ ∃ s, v = .str s

/-- A value Python can iterate over. -/
def iterableVal (v : PyVal) : Prop :=
  (∃ xs, v = .list xs) ∨ (∃ s, v = .str s) ∨ (∃ kvs, v = .dict kvs)

/-- An `image` field value the converter survives: anything except a
non-empty list whose first element is a truthy non-string. -/
def imageFieldOk : PyVal → Prop
  | .list (x :: _) => pyTruthy x = false ∨ ∃ s, x = .str s
  | _ => True

theorem psd_str_ok (s : String) : ∃ w, parse_schema_duration (.str s) = .ok w := by
  simp only [parse_schema_duration]
  repeat first
  | exact ⟨_, rfl⟩
  | split

theorem psd_ok (v : PyVal) (h : durationFieldOk v) :
    ∃ w, parse_schema_duration v = .ok w := by
  rcases h with h | ⟨s, rfl⟩
  · exact ⟨.none, by simp [parse_schema_duration, h]⟩
  · exact psd_str_ok s

theorem pyIter_ok (v : PyVal) (h : iterableVal v) :
    ∃ xs, pyIter v = .ok xs := by
  rcases h with ⟨xs, rfl⟩ | ⟨s, rfl⟩ | ⟨kvs, rfl⟩ <;> exact ⟨_, rfl⟩

theorem imageUrlStep_str_ok (s : String) : ∃ w, imageUrlStep (.str s) = .ok w := by
  simp only [imageUrlStep]
  repeat first
  | exact ⟨_, rfl⟩
  | split

theorem imageUrlStep_ok (v : PyVal) (h : imageFieldOk v) :
    ∃ w, imageUrlStep (imageOf v) = .ok w := by
  match v, h with
  | .list (x :: _), h =>
    rcases h with h | ⟨s, rfl⟩
    · exact ⟨.none, by simp [imageOf, imageUrlStep, h]⟩
    · exact imageUrlStep_str_ok s
  | .str s, _ => exact imageUrlStep_str_ok s
  | .none, _ => exact ⟨.none, rfl⟩
  | .bool b, _ => exact ⟨.none, rfl⟩
  | .int n, _ => exact ⟨.none, rfl⟩
  | .float q, _ => exact ⟨.none, rfl⟩
  | .list [], _ => exact ⟨.none, rfl⟩
  | .dict kvs, _ => exact ⟨.none, rfl⟩

/-- C2 counterexample: `convert_schema_org_to_internal_recipe` is not
total — a candidate whose `recipeIngredient` is a number raises
`TypeError` at the `for` loop (and a truthy non-string `prepTime` raises
`AttributeError` at `.startswith`). -/
theorem claim_C2_converter_counterexample :
    convert_schema_org_to_internal_recipe 0
      (.dict [("recipeIngredient", .int 1)]) "http://u" = .error "TypeError"
    ∧ convert_schema_org_to_internal_recipe 0
      (.dict [("prepTime", .int 5)]) "http://u" = .error "AttributeError" :=
  ⟨rfl, rfl⟩

/-- C2 (amended): the converter returns a best-effort record with the
configured defaults, without raising, for every candidate dictionary whose
duration fields are strings or falsy, whose `recipeIngredient` value — the
empty list being substituted only when the key is absent (`data.get` with a
list default) — is iterable (a list, string or dict; a present `null` or
number raises `TypeError`), and whose `image`, when a non-empty list, does
not start with a truthy non-string. -/
theorem claim_C2_converter_amended (seed : Nat) (kvs : PyDict) (url : String)
    (h1 : durationFieldOk (pyGet kvs "prepTime"))
    (h2 : durationFieldOk (pyGet kvs "cookTime"))
    (h3 : durationFieldOk (pyGet kvs "totalTime"))
    (h4 : iterableVal (pyGetD kvs "recipeIngredient" (.list [])))
    (h5 : imageFieldOk (pyGet kvs "image")) :
    ∃ r, convert_schema_org_to_internal_recipe seed (.dict kvs) url = .ok r
      ∧ pyGet r "source" = .str "url_import_schema.org"
      ∧ pyGet r "recipeId" = .str (uuidHex seed)
      ∧ (pyTruthy (pyGet kvs "name") = false →
           pyGet r "title" = .str DEFAULT_RECIPE_TITLE) := by
  obtain ⟨p1, hp1⟩ := psd_ok _ h1
  obtain ⟨p2, hp2⟩ := psd_ok _ h2
  obtain ⟨p3, hp3⟩ := psd_ok _ h3
  obtain ⟨ings, hi⟩ := pyIter_ok _ h4
  obtain ⟨img, himg⟩ := imageUrlStep_ok _ h5
  refine ⟨assembleRecipe seed kvs url p1 p2 p3 ings img, ?_, rfl, rfl, ?_⟩
  · simp only [convert_schema_org_to_internal_recipe, convertDict, hp1, hp2, hp3, hi, himg,
      exceptBindOk]
    rfl
  · intro hname
    show pyOr (pyGet kvs "name") (.str DEFAULT_RECIPE_TITLE) = .str DEFAULT_RECIPE_TITLE
    simp [pyOr, hname]

/-! ## Orchestrator lemmas (claims C1, C8, C9) -/

theorem convertDict_ok_shape (seed : Nat) (kvs : PyDict) (url : String) (r : PyDict)
    (h : convertDict seed kvs url = .ok r) :
    ∃ p1 p2 p3 ings img, r = assembleRecipe seed kvs url p1 p2 p3 ings img := by
  simp only [convertDict] at h
  cases h1 : parse_schema_duration (pyGet kvs "prepTime") with
  | error e => rw [h1, exceptBindErr] at h; exact absurd h (by simp)
  | ok p1 =>
    rw [h1, exceptBindOk] at h
    cases h2 : parse_schema_duration (pyGet kvs "cookTime") with
    | error e => rw [h2, exceptBindErr] at h; exact absurd h (by simp)
    | ok p2 =>
      rw [h2, exceptBindOk] at h
      cases h3 : parse_schema_duration (pyGet kvs "totalTime") with
      | error e => rw [h3, exceptBindErr] at h; exact absurd h (by simp)
      | ok p3 =>
        rw [h3, exceptBindOk] at h
        cases h4 : pyIter (pyGetD kvs "recipeIngredient" (.list [])) with
        | error e => rw [h4, exceptBindErr] at h; exact absurd h (by simp)
        | ok ings =>
          rw [h4, exceptBindOk] at h
          cases h5 : imageUrlStep (imageOf (pyGet kvs "image")) with
          | error e => rw [h5, exceptBindErr] at h; exact absurd h (by simp)
          | ok img =>
            rw [h5, exceptBindOk] at h
            exact ⟨p1, p2, p3, ings, img, (Except.ok.inj h).symm⟩

theorem convert_ok_shape (seed : Nat) (data : PyVal) (url : String) (r : PyDict)
    (h : convert_schema_org_to_internal_recipe seed data url = .ok r) :
    ∃ kvs p1 p2 p3 ings img, data = .dict kvs
      ∧ r = assembleRecipe seed kvs url p1 p2 p3 ings img := by
  cases data with
  | dict kvs =>
    obtain ⟨p1, p2, p3, ings, img, hr⟩ := convertDict_ok_shape seed kvs url r h
    exact ⟨kvs, p1, p2, p3, ings, img, rfl, hr⟩
  | none => simp [convert_schema_org_to_internal_recipe] at h
  | bool b => simp [convert_schema_org_to_internal_recipe] at h
  | int n => simp [convert_schema_org_to_internal_recipe] at h
  | float q => simp [convert_schema_org_to_internal_recipe] at h
  | str s => simp [convert_schema_org_to_internal_recipe] at h
  | list xs => simp [convert_schema_org_to_internal_recipe] at h

theorem assemble_keys (seed : Nat) (kvs : PyDict) (url : String)
    (p1 p2 p3 : PyVal) (ings : List PyVal) (img : PyVal) :
    (assembleRecipe seed kvs url p1 p2 p3 ings img).map Prod.fst
      = ["recipeId", "title", "servings", "category", "difficulty", "ingredients",
         "instructions", "prepTime", "cookTime", "totalTime", "imageURL", "calories",
         "source", "originalImportUrl", "isPublic", "isSecretRecipe",
         "tipsAndVariations"] := rfl

theorem pyTruthy_uuidHex (seed : Nat) : pyTruthy (.str (uuidHex seed)) = true := by
  simp [pyTruthy, uuidHex_ne_empty seed]

theorem pyTruthy_uuidStr (seed : Nat) : pyTruthy (.str (uuidStr seed)) = true := by
  simp [pyTruthy, uuidStr_ne_empty seed]

/-- The well-formedness the LLM path relies on: a successful LLM result
that is a dict has no duplicate keys (true of every real Python dict). -/
def llmDictKeysOk (env : ScrapeEnv) : Prop :=
  match env.llm with
  | .ok (.dict kvs) => (kvs.map Prod.fst).Nodup
  | _ => True

/-- The LLM post-processing guarantees a truthy `recipeId` and exactly one
`source` entry, given the (real-dict) uniqueness of the LLM dict's keys. -/
theorem llmPost_shape (kvs : PyDict) (url : String) (instr : Option String) (seed : Nat)
    (hkeys : (kvs.map Prod.fst).Nodup) :
    pyTruthy (pyGet (llmPost kvs url instr seed) "recipeId") = true
    ∧ countKey (llmPost kvs url instr seed) "source" = 1 := by
  have hstep : ∀ r1 : PyDict, pyTruthy (pyGet r1 "recipeId") = true →
      (r1.map Prod.fst).Nodup →
      ∀ r4 : PyDict, (r4 = dictSet (dictSet r1 "source" (.str "url_scrape_gemini_fallback"))
          "originalImportUrl" (.str url)
        ∨ r4 = dictSet (dictSet (dictSet r1 "source" (.str "url_scrape_gemini_fallback"))
          "originalImportUrl" (.str url)) "userModificationInstructions"
            (.str (pyStrip (instr.getD ""))) ) →
      pyTruthy (pyGet r4 "recipeId") = true ∧ countKey r4 "source" = 1 := by
    intro r1 hid hnd r4 hr4
    have hsrc : countKey (dictSet r1 "source" (.str "url_scrape_gemini_fallback")) "source"
        = 1 := countKey_dictSet_nodup r1 "source" _ hnd
    have hgetid : pyGet (dictSet (dictSet r1 "source" (.str "url_scrape_gemini_fallback"))
        "originalImportUrl" (.str url)) "recipeId" = pyGet r1 "recipeId" := by
      rw [pyGet_dictSet_ne _ _ _ _ (by decide), pyGet_dictSet_ne _ _ _ _ (by decide)]
    have hcnt : countKey (dictSet (dictSet r1 "source" (.str "url_scrape_gemini_fallback"))
        "originalImportUrl" (.str url)) "source" = 1 := by
      rw [countKey_dictSet_ne _ _ _ _ (by decide)]
      exact hsrc
    rcases hr4 with h | h <;> subst h
    · exact ⟨hgetid ▸ hid, hcnt⟩
    · constructor
      · rw [pyGet_dictSet_ne _ _ _ _ (by decide), hgetid]
        exact hid
      · rw [countKey_dictSet_ne _ _ _ _ (by decide)]
        exact hcnt
  simp only [llmPost]
  by_cases hid : pyTruthy (pyGet kvs "recipeId") = true
  · rw [if_neg (not_not_intro hid)]
    cases instr with
    | none => exact hstep kvs hid hkeys _ (Or.inl rfl)
    | some i =>
      dsimp only
      by_cases hc : i ≠ "" ∧ ¬ hasKey (dictSet (dictSet kvs "source"
          (.str "url_scrape_gemini_fallback")) "originalImportUrl" (.str url))
          "userModificationInstructions" = true
      · rw [if_pos hc]
        exact hstep kvs hid hkeys _ (Or.inr rfl)
      · rw [if_neg hc]
        exact hstep kvs hid hkeys _ (Or.inl rfl)
  · rw [if_pos hid]
    have hid2 : pyTruthy (pyGet (dictSet kvs "recipeId" (.str (uuidStr seed)))
        "recipeId") = true := by
      rw [pyGet_dictSet_self]
      exact pyTruthy_uuidStr seed
    have hnd2 : ((dictSet kvs "recipeId" (.str (uuidStr seed))).map Prod.fst).Nodup :=
      nodupKeys_dictSet kvs "recipeId" _ hkeys
    cases instr with
    | none => exact hstep _ hid2 hnd2 _ (Or.inl rfl)
    | some i =>
      dsimp only
      by_cases hc : i ≠ "" ∧ ¬ hasKey (dictSet (dictSet (dictSet kvs "recipeId"
          (.str (uuidStr seed))) "source" (.str "url_scrape_gemini_fallback"))
          "originalImportUrl" (.str url)) "userModificationInstructions" = true
      · rw [if_pos hc]
        exact hstep _ hid2 hnd2 _ (Or.inr rfl)
      · rw [if_neg hc]
        exact hstep _ hid2 hnd2 _ (Or.inl rfl)

/-- Every successful `geminiFallback` result invoked the LLM, carries a
truthy `recipeId` and exactly one `source` entry. -/
theorem geminiFallback_ok_shape (url : String) (env : ScrapeEnv) (instr : Option String)
    (r : PyDict) (called : Bool) (henv : llmDictKeysOk env)
    (h : geminiFallback url env instr = (.ok r, called)) :
    called = true
    ∧ pyTruthy (pyGet r "recipeId") = true
    ∧ countKey r "source" = 1 := by
  simp only [geminiFallback] at h
  by_cases ht : pyStrip env.pageText = ""
  · rw [if_pos ht] at h
    exact absurd h (by simp)
  · rw [if_neg ht] at h
    cases hllm : env.llm with
    | connOrValueError m => rw [hllm] at h; exact absurd h (by simp)
    | otherError m => rw [hllm] at h; exact absurd h (by simp)
    | ok v =>
      rw [hllm] at h
      dsimp only at h
      by_cases htr : pyTruthy v = true
      · rw [if_pos htr] at h
        cases v with
        | dict kvs =>
          have hkeys : (kvs.map Prod.fst).Nodup := by
            simpa [llmDictKeysOk, hllm] using henv
          rw [Prod.mk.injEq] at h
          obtain ⟨hr, hcalled⟩ := h
          have hr2 := Except.ok.inj hr
          subst hr2
          obtain ⟨ha, hb⟩ := llmPost_shape kvs url instr env.seed hkeys
          exact ⟨hcalled.symm, ha, hb⟩
        | none => exact absurd h (by simp)
        | bool b => exact absurd h (by simp)
        | int n => exact absurd h (by simp)
        | float q => exact absurd h (by simp)
        | str s => exact absurd h (by simp)
        | list xs => exact absurd h (by simp)
      · rw [if_neg htr] at h
        exact absurd h (by simp)

/-! ## Claim C8 -/

/-- C8: when the structured-data path has not produced a record (nothing
found, a falsy candidate skipped by `if recipe_schema_data:`, or a raised
conversion) and the extracted text excerpt is empty or whitespace-only,
`parse_recipe_from_url` fails with the no-extractable-content error and
the LLM capability is never invoked (the invocation flag of the result is
`false`).
spec-modelled: the LLM capability itself is `extract_recipe_from_text_content_for_url_scrape`,
imported but not defined in the repository; it is modelled from the spec
as the `llm` field of the environment, and the claim is about the stage
boundary before any use of it. -/
theorem claim_C8_empty_content (url : String) (env : ScrapeEnv) (instr : Option String)
    (html : String)
    (hurl : pyStartsWith url "http://" = true ∨ pyStartsWith url "https://" = true)
    (hfetch : env.fetch = .ok html)
    (hstruct : locateStructured env.extructResult = Option.none
      ∨ ∃ cand, locateStructured env.extructResult = some cand
          ∧ (pyTruthy cand = false
             ∨ ∃ e, convert_schema_org_to_internal_recipe env.seed cand url = .error e))
    (htext : pyStrip env.pageText = "") :
    parse_recipe_from_url url env instr = (.error .noExtractableContent, false) := by
  have hgf : geminiFallback url env instr = (.error .noExtractableContent, false) := by
    simp only [geminiFallback]
    rw [if_pos htext]
  simp only [parse_recipe_from_url]
  rw [if_neg (not_not_intro hurl)]
  rw [hfetch]
  dsimp only
  rcases hstruct with h | ⟨cand, hc, hfalsy | ⟨e, he⟩⟩
  · rw [h]
    exact hgf
  · rw [hc]
    dsimp only
    rw [if_neg (by simp [hfalsy])]
    exact hgf
  · rw [hc]
    dsimp only
    by_cases ht : pyTruthy cand = true
    · rw [if_pos ht]
      rw [he]
      exact hgf
    · rw [if_neg ht]
      exact hgf

/-- Witness for C8: a page with unconvertible structured data, and a page
whose only candidate is a falsy microdata `properties` dict that
`if recipe_schema_data:` skips — both with a whitespace-only excerpt. -/
theorem claim_C8_empty_content_witness :
    parse_recipe_from_url "http://w"
      ⟨.ok "<html></html>",
       .ok ([.dict [("@type", .str "Recipe"), ("recipeIngredient", .int 1)]], []),
       "  \n ", .ok (.dict [("title", .str "T")]), 0⟩ Option.none
      = (.error .noExtractableContent, false)
    ∧ parse_recipe_from_url "http://w"
      ⟨.ok "<html></html>",
       .ok ([], [.dict [("type", .str "https://schema.org/Recipe"),
                        ("properties", .dict [])]]),
       "  \n ", .ok (.dict [("title", .str "T")]), 0⟩ Option.none
      = (.error .noExtractableContent, false) :=
  ⟨claim_C8_empty_content "http://w" _ Option.none "<html></html>" (Or.inl rfl) rfl
    (Or.inr ⟨.dict [("@type", .str "Recipe"), ("recipeIngredient", .int 1)],
      rfl, Or.inr ⟨"TypeError", rfl⟩⟩) rfl,
   claim_C8_empty_content "http://w" _ Option.none "<html></html>" (Or.inl rfl) rfl
    (Or.inr ⟨.dict [], rfl, Or.inl rfl⟩) rfl⟩

/-! ## Claim C1 -/

/-- C1: when the structured-data scan finds a Recipe-typed candidate whose
schema conversion raises, `parse_recipe_from_url` does not fail at that
stage: it falls through to the text + LLM path, and on LLM success (a
truthy dict) returns a record whose `source` equals
`"url_scrape_gemini_fallback"`, not an error.
spec-modelled: the LLM call is the missing
`extract_recipe_from_text_content_for_url_scrape`, modelled from the spec
as the `llm` field of the environment. -/
theorem claim_C1_llm_fallback (url : String) (env : ScrapeEnv) (instr : Option String)
    (html : String) (cand : PyVal) (e : PyErr) (kvs : PyDict)
    (hurl : pyStartsWith url "http://" = true ∨ pyStartsWith url "https://" = true)
    (hfetch : env.fetch = .ok html)
    (hloc : locateStructured env.extructResult = some cand)
    (hconv : convert_schema_org_to_internal_recipe env.seed cand url = .error e)
    (htext : ¬ pyStrip env.pageText = "")
    (hllm : env.llm = .ok (.dict kvs))
    (hne : kvs ≠ []) :
    ∃ r, parse_recipe_from_url url env instr = (.ok r, true)
      ∧ pyGet r "source" = .str "url_scrape_gemini_fallback" := by
  have htruthy : pyTruthy (.dict kvs) = true := by
    simp [pyTruthy, List.isEmpty_iff, hne]
  have hsrc : pyGet (llmPost kvs url instr env.seed) "source"
      = .str "url_scrape_gemini_fallback" := by
    simp only [llmPost]
    cases instr with
    | none => rw [pyGet_dictSet_ne _ _ _ _ (by decide), pyGet_dictSet_self]
    | some i =>
      dsimp only
      split <;> split <;>
        first
        | rw [pyGet_dictSet_ne _ _ _ _ (by decide),
            pyGet_dictSet_ne _ _ _ _ (by decide), pyGet_dictSet_self]
        | rw [pyGet_dictSet_ne _ _ _ _ (by decide), pyGet_dictSet_self]
  refine ⟨llmPost kvs url instr env.seed, ?_, hsrc⟩
  have hgf : geminiFallback url env instr = (.ok (llmPost kvs url instr env.seed), true) := by
    simp only [geminiFallback]
    rw [if_neg htext, hllm]
    dsimp only
    rw [if_pos htruthy]
  simp only [parse_recipe_from_url]
  rw [if_neg (not_not_intro hurl)]
  rw [hfetch]
  dsimp only
  rw [hloc]
  dsimp only
  by_cases htr2 : pyTruthy cand = true
  · rw [if_pos htr2]
    rw [hconv]
    exact hgf
  · rw [if_neg htr2]
    exact hgf

/-- Witness for C1: a Recipe-typed block whose conversion raises
(`recipeIngredient` is a number) with a successful LLM fallback. -/
theorem claim_C1_llm_fallback_witness :
    ∃ r, parse_recipe_from_url "http://w"
        ⟨.ok "<html></html>",
         .ok ([.dict [("@type", .str "Recipe"), ("recipeIngredient", .int 1)]], []),
         "page text", .ok (.dict [("title", .str "T")]), 0⟩ Option.none
      = (.ok r, true)
      ∧ pyGet r "source" = .str "url_scrape_gemini_fallback" :=
  claim_C1_llm_fallback "http://w" _ Option.none "<html></html>"
    (.dict [("@type", .str "Recipe"), ("recipeIngredient", .int 1)]) "TypeError"
    [("title", .str "T")] (Or.inl rfl) rfl rfl rfl (by decide) rfl
    (List.cons_ne_nil _ _)

/-! ## Claim C9 -/

/-- C9 counterexample: a successful LLM-path result need not carry
`ingredients`/`instructions` sequences — the orchestrator only assigns
`recipeId`, `source` and `originalImportUrl` to whatever dict the LLM
produced, so a result with `ingredients` absent (null) is possible. -/
theorem claim_C9_invariants_counterexample :
    parse_recipe_from_url "http://e"
      ⟨.ok "<html></html>", .ok ([], []), "Some page text",
       .ok (.dict [("title", .str "T")]), 0⟩ Option.none
      = (.ok [("title", .str "T"),
              ("recipeId", .str "00000000-0000-0000-0000-000000000000"),
              ("source", .str "url_scrape_gemini_fallback"),
              ("originalImportUrl", .str "http://e")], true)
    ∧ pyGet [("title", .str "T"),
             ("recipeId", .str "00000000-0000-0000-0000-000000000000"),
             ("source", .str "url_scrape_gemini_fallback"),
             ("originalImportUrl", .str "http://e")] "ingredients" = .none :=
  ⟨rfl, rfl⟩

/-- C9 (amended): on every successful result, `recipeId` is present and
truthy (non-empty) and the record carries exactly one `source` entry; the
guarantee that `ingredients` and `instructions` are sequences holds on the
structured-data path (LLM not invoked) — the LLM path passes through
whatever the parsed LLM output contained.
spec-modelled: the LLM capability is the missing
`extract_recipe_from_text_content_for_url_scrape`, modelled from the spec;
well-formedness of its dict (no duplicate keys, true of every Python dict)
is assumed. -/
theorem claim_C9_invariants_amended (url : String) (env : ScrapeEnv) (instr : Option String)
    (r : PyDict) (called : Bool) (henv : llmDictKeysOk env)
    (h : parse_recipe_from_url url env instr = (.ok r, called)) :
    pyTruthy (pyGet r "recipeId") = true
    ∧ countKey r "source" = 1
    ∧ (called = false →
        (∃ xs, pyGet r "ingredients" = .list xs)
        ∧ (∃ ys, pyGet r "instructions" = .list ys)) := by
  simp only [parse_recipe_from_url] at h
  by_cases hu : ¬ (pyStartsWith url "http://" = true ∨ pyStartsWith url "https://" = true)
  · rw [if_pos hu] at h
    exact absurd h (by simp)
  · rw [if_neg hu] at h
    cases hfetch : env.fetch with
    | error m =>
      rw [hfetch] at h
      exact absurd h (by simp)
    | ok html =>
      rw [hfetch] at h
      dsimp only at h
      cases hloc : locateStructured env.extructResult with
      | some cand =>
        rw [hloc] at h
        dsimp only at h
        by_cases htr : pyTruthy cand = true
        case neg =>
          rw [if_neg htr] at h
          obtain ⟨hc1, ha, hb⟩ := geminiFallback_ok_shape url env instr r called henv h
          refine ⟨ha, hb, fun hf => ?_⟩
          rw [hf] at hc1
          exact absurd hc1 (by simp)
        case pos =>
        rw [if_pos htr] at h
        cases hconv : convert_schema_org_to_internal_recipe env.seed cand url with
        | ok internal =>
          rw [hconv] at h
          dsimp only at h
          obtain ⟨kvs, p1, p2, p3, ings, img, hcand, hshape⟩ :=
            convert_ok_shape _ _ _ _ hconv
          subst hshape
          have key : ∀ d : PyDict,
              (d = assembleRecipe env.seed kvs url p1 p2 p3 ings img
               ∨ ∃ v, d = dictSet (assembleRecipe env.seed kvs url p1 p2 p3 ings img)
                  "userModificationInstructions" v) →
              pyTruthy (pyGet d "recipeId") = true ∧ countKey d "source" = 1
              ∧ (∃ xs, pyGet d "ingredients" = .list xs)
              ∧ (∃ ys, pyGet d "instructions" = .list ys) := by
            intro d hd
            rcases hd with rfl | ⟨v, rfl⟩
            · exact ⟨pyTruthy_uuidHex env.seed, rfl, ⟨_, rfl⟩, ⟨_, rfl⟩⟩
            · refine ⟨?_, ?_, ?_, ?_⟩
              · rw [pyGet_dictSet_ne _ _ _ _ (by decide)]
                exact pyTruthy_uuidHex env.seed
              · rw [countKey_dictSet_ne _ _ _ _ (by decide)]
                rfl
              · rw [pyGet_dictSet_ne _ _ _ _ (by decide)]
                exact ⟨_, rfl⟩
              · rw [pyGet_dictSet_ne _ _ _ _ (by decide)]
                exact ⟨_, rfl⟩
          cases instr with
          | none =>
            dsimp only at h
            rw [Prod.mk.injEq] at h
            obtain ⟨hr, _⟩ := h
            obtain ⟨ha, hb, hc3, hd3⟩ := key r (Or.inl (Except.ok.inj hr).symm)
            exact ⟨ha, hb, fun _ => ⟨hc3, hd3⟩⟩
          | some i =>
            dsimp only at h
            split at h
            · rw [Prod.mk.injEq] at h
              obtain ⟨hr, _⟩ := h
              obtain ⟨ha, hb, hc3, hd3⟩ :=
                key r (Or.inr ⟨_, (Except.ok.inj hr).symm⟩)
              exact ⟨ha, hb, fun _ => ⟨hc3, hd3⟩⟩
            · rw [Prod.mk.injEq] at h
              obtain ⟨hr, _⟩ := h
              obtain ⟨ha, hb, hc3, hd3⟩ := key r (Or.inl (Except.ok.inj hr).symm)
              exact ⟨ha, hb, fun _ => ⟨hc3, hd3⟩⟩
        | error e =>
          rw [hconv] at h
          dsimp only at h
          obtain ⟨hc1, ha, hb⟩ := geminiFallback_ok_shape url env instr r called henv h
          refine ⟨ha, hb, fun hf => ?_⟩
          rw [hf] at hc1
          exact absurd hc1 (by simp)
      | none =>
        rw [hloc] at h
        dsimp only at h
        obtain ⟨hc1, ha, hb⟩ := geminiFallback_ok_shape url env instr r called henv h
        refine ⟨ha, hb, fun hf => ?_⟩
        rw [hf] at hc1
        exact absurd hc1 (by simp)

/-- Witness for C9 (amended): applied at a structured-data-path request. -/
theorem claim_C9_invariants_amended_witness :
    pyTruthy (pyGet (assembleRecipe 3 [("@type", PyVal.str "Recipe")] "http://w"
        .none .none .none [] .none) "recipeId") = true
    ∧ countKey (assembleRecipe 3 [("@type", PyVal.str "Recipe")] "http://w"
        .none .none .none [] .none) "source" = 1
    ∧ (false = false →
        (∃ xs, pyGet (assembleRecipe 3 [("@type", PyVal.str "Recipe")] "http://w"
            .none .none .none [] .none) "ingredients" = .list xs)
        ∧ (∃ ys, pyGet (assembleRecipe 3 [("@type", PyVal.str "Recipe")] "http://w"
            .none .none .none [] .none) "instructions" = .list ys)) :=
  claim_C9_invariants_amended "http://w"
    ⟨.ok "<html></html>", .ok ([.dict [("@type", .str "Recipe")]], []), "txt",
     .ok .none, 3⟩
    Option.none _ false trivial rfl

/-! ## Claim C7 -/

theorem scanGraph_wf (gs : List PyVal) (h : ∀ g ∈ gs, isDictVal g) :
    scanGraph gs = .ok (gs.find? (fun g => typeMatchesRecipe (blockType g))) := by
  induction gs with
  | nil => rfl
  | cons g rest ih =>
    obtain ⟨kvs, rfl⟩ := h g (List.mem_cons_self g rest)
    have hrest := ih (fun g2 hg2 => h g2 (List.mem_cons_of_mem _ hg2))
    simp only [scanGraph, pyDotGetD, exceptBindOk]
    by_cases hm : typeMatchesRecipe (blockType (.dict kvs))
    · simp only [blockType] at hm
      rw [if_pos hm, List.find?_cons_of_pos _ (by simpa [blockType] using hm)]
    · simp only [blockType] at hm
      rw [if_neg hm, List.find?_cons_of_neg _ (by simpa [blockType] using hm)]
      exact hrest

theorem scanJsonLd_wf (items : List PyVal) (h : WellFormedLd items) :
    scanJsonLd items = .ok (items.findSome? blockCandidate) := by
  induction items with
  | nil => rfl
  | cons item rest ih =>
    obtain ⟨⟨kvs, rfl⟩, hgraph⟩ := h item (List.mem_cons_self item rest)
    have hrest := ih (fun i2 hi2 => h i2 (List.mem_cons_of_mem _ hi2))
    rw [List.findSome?_cons]
    simp only [scanJsonLd, pyDotGetD, exceptBindOk]
    by_cases hm : typeMatchesRecipe (blockType (.dict kvs))
    · simp only [blockType] at hm
      rw [if_pos hm]
      simp only [blockCandidate, blockType, if_pos hm]
    · simp only [blockType] at hm
      rw [if_neg hm]
      have hcand : blockCandidate (.dict kvs)
          = (graphItems (.dict kvs)).find? (fun g => typeMatchesRecipe (blockType g)) := by
        simp only [blockCandidate, blockType, if_neg hm]
      by_cases hk : hasKey kvs "@graph" = true
      · rw [if_pos hk]
        cases hg : pyGet kvs "@graph" with
        | list xs =>
          have hgi : graphItems (.dict kvs) = xs := by
            simp [graphItems, hk, hg]
          dsimp only
          rw [scanGraph_wf xs (by rw [← hgi]; exact hgraph), exceptBindOk]
          rw [hcand, hgi]
          cases hfind : xs.find? (fun g => typeMatchesRecipe (blockType g)) with
          | none => simp only [hfind]; exact hrest
          | some r => simp only [hfind]
        | none =>
          have hgi : graphItems (.dict kvs) = [] := by simp [graphItems, hk, hg]
          rw [hcand, hgi]
          simp only [List.find?_nil]
          exact hrest
        | bool b =>
          have hgi : graphItems (.dict kvs) = [] := by simp [graphItems, hk, hg]
          rw [hcand, hgi]
          simp only [List.find?_nil]
          exact hrest
        | int n =>
          have hgi : graphItems (.dict kvs) = [] := by simp [graphItems, hk, hg]
          rw [hcand, hgi]
          simp only [List.find?_nil]
          exact hrest
        | float q =>
          have hgi : graphItems (.dict kvs) = [] := by simp [graphItems, hk, hg]
          rw [hcand, hgi]
          simp only [List.find?_nil]
          exact hrest
        | str s =>
          have hgi : graphItems (.dict kvs) = [] := by simp [graphItems, hk, hg]
          rw [hcand, hgi]
          simp only [List.find?_nil]
          exact hrest
        | dict kvs2 =>
          have hgi : graphItems (.dict kvs) = [] := by simp [graphItems, hk, hg]
          rw [hcand, hgi]
          simp only [List.find?_nil]
          exact hrest
      · rw [if_neg hk]
        have hgi : graphItems (.dict kvs) = [] := by simp [graphItems, hk]
        rw [hcand, hgi]
        simp only [List.find?_nil]
        exact hrest

theorem scanMicrodata_wf (items : List PyVal) (h : ∀ item ∈ items, isDictVal item) :
    scanMicrodata items = .ok (items.findSome? microCandidate) := by
  induction items with
  | nil => rfl
  | cons item rest ih =>
    obtain ⟨kvs, rfl⟩ := h item (List.mem_cons_self item rest)
    have hrest := ih (fun i2 hi2 => h i2 (List.mem_cons_of_mem _ hi2))
    rw [List.findSome?_cons]
    simp only [scanMicrodata, pyDotGetD, exceptBindOk]
    cases ht : pyGetD kvs "type" (.str "") with
    | str s =>
      have htm : blockTypeMd (.dict kvs) = .str s := by simp [blockTypeMd, ht]
      dsimp only
      by_cases he : endsWithRecipe s = true
      · rw [if_pos he]
        simp only [microCandidate, htm, if_pos he, pyDotGetD, exceptBindOk]
      · rw [if_neg he]
        simp only [microCandidate, htm, if_neg he]
        exact hrest
    | none =>
      simp only [microCandidate, blockTypeMd, ht]
      exact hrest
    | bool b =>
      simp only [microCandidate, blockTypeMd, ht]
      exact hrest
    | int n =>
      simp only [microCandidate, blockTypeMd, ht]
      exact hrest
    | float q =>
      simp only [microCandidate, blockTypeMd, ht]
      exact hrest
    | list xs =>
      simp only [microCandidate, blockTypeMd, ht]
      exact hrest
    | dict kvs2 =>
      simp only [microCandidate, blockTypeMd, ht]
      exact hrest

/-- C7: the structured-data scan returns the first `Recipe`-typed entity
and stops: JSON-LD blocks contribute, in document order, their directly
typed entity before their `@graph` entries (first-match in each list);
type matching accepts the string `Recipe` or a type list containing it;
microdata (string `type` ending in `/Recipe`) is consulted only when
JSON-LD yields nothing; and when nothing matches the locator yields
`None`, not an error. -/
theorem claim_C7_locator (jsonLd microdata : List PyVal) :
    (WellFormedLd jsonLd →
       scanJsonLd jsonLd = .ok (jsonLd.findSome? blockCandidate))
    ∧ ((∀ item ∈ microdata, isDictVal item) →
       scanMicrodata microdata = .ok (microdata.findSome? microCandidate))
    ∧ (∀ r, scanJsonLd jsonLd = .ok (some r) →
        locateStructured (.ok (jsonLd, microdata)) = some r)
    ∧ (scanJsonLd jsonLd = .ok Option.none →
        locateStructured (.ok (jsonLd, microdata)) =
          (match scanMicrodata microdata with
           | .ok r => r
           | .error _ => Option.none))
    ∧ (scanJsonLd jsonLd = .ok Option.none →
        scanMicrodata microdata = .ok Option.none →
        locateStructured (.ok (jsonLd, microdata)) = Option.none)
    ∧ typeMatchesRecipe (.str "Recipe") = true
    ∧ typeMatchesRecipe (.list [.str "Article", .str "Recipe"]) = true
    ∧ typeMatchesRecipe (.str "Article") = false
    ∧ typeMatchesRecipe (.list [.str "Article"]) = false := by
  refine ⟨scanJsonLd_wf jsonLd, scanMicrodata_wf microdata, ?_, ?_, ?_, rfl, rfl, rfl, rfl⟩
  · intro r hscan
    simp only [locateStructured, exceptBindOk, hscan]
  · intro hscan
    simp only [locateStructured, exceptBindOk, hscan]
  · intro hscan hmicro
    simp only [locateStructured, exceptBindOk, hscan, hmicro]

/-- Witness for C7: applied to a document with a non-Recipe block before a
Recipe block, and a microdata item that is ignored. -/
theorem claim_C7_locator_witness :
    scanJsonLd [.dict [("@type", .str "Article")], .dict [("@type", .str "Recipe")]]
      = .ok ([PyVal.dict [("@type", .str "Article")],
              PyVal.dict [("@type", .str "Recipe")]].findSome? blockCandidate)
    ∧ locateStructured (.ok ([.dict [("@type", .str "Article")],
        .dict [("@type", .str "Recipe")]],
        [.dict [("type", .str "x/Recipe"), ("properties", .dict [("name", .str "M")])]]))
      = some (.dict [("@type", .str "Recipe")]) := by
  have h := claim_C7_locator
    [PyVal.dict [("@type", PyVal.str "Article")], PyVal.dict [("@type", PyVal.str "Recipe")]]
    [PyVal.dict [("type", PyVal.str "x/Recipe"), ("properties", PyVal.dict [("name", PyVal.str "M")])]]
  refine ⟨h.1 ?_, h.2.2.1 (.dict [("@type", .str "Recipe")]) rfl⟩
  intro item hitem
  rcases List.mem_cons.mp hitem with h1 | h1
  · subst h1
    exact ⟨⟨_, rfl⟩, by intro g hg; exact absurd hg (by simp [graphItems, hasKey])⟩
  · rcases List.mem_cons.mp h1 with h2 | h2
    · subst h2
      exact ⟨⟨_, rfl⟩, by intro g hg; exact absurd hg (by simp [graphItems, hasKey])⟩
    · exact absurd h2 (by simp)

/-! ## Claim C6 -/

/-- Position `i` can start a match of `(\{.*\}|\[.*\])`: it holds an
opening brace with a later closing brace, or an opening bracket with a
later closing bracket. -/
def qualifiesAt (cs : List Char) (i : Nat) : Prop :=
  (cs[i]? = some '{' ∧ ∃ j, i < j ∧ cs[j]? = some '}')
  ∨ (cs[i]? = some '[' ∧ ∃ j, i < j ∧ cs[j]? = some ']')

/-- The input contains a `{...}` or `[...]` span. -/
def HasJsonSpan (cs : List Char) : Prop := ∃ i, qualifiesAt cs i

theorem qualifiesAt_cons_succ (c : Char) (rest : List Char) (i : Nat) :
    qualifiesAt (c :: rest) (i + 1) ↔ qualifiesAt rest i := by
  unfold qualifiesAt
  have hshift : ∀ b : Char, (∃ j, i + 1 < j ∧ (c :: rest)[j]? = some b)
      ↔ (∃ j, i < j ∧ rest[j]? = some b) := by
    intro b
    constructor
    · rintro ⟨j, hj, hjb⟩
      cases j with
      | zero => omega
      | succ j2 =>
        rw [List.getElem?_cons_succ] at hjb
        exact ⟨j2, by omega, hjb⟩
    · rintro ⟨j, hj, hjb⟩
      exact ⟨j + 1, by omega, by rw [List.getElem?_cons_succ]; exact hjb⟩
  rw [List.getElem?_cons_succ, hshift '}', hshift ']']

theorem qualifiesAt_zero (c : Char) (rest : List Char) :
    qualifiesAt (c :: rest) 0 ↔ (c = '{' ∧ '}' ∈ rest) ∨ (c = '[' ∧ ']' ∈ rest) := by
  unfold qualifiesAt
  have hmem : ∀ b : Char, (∃ j, 0 < j ∧ (c :: rest)[j]? = some b) ↔ b ∈ rest := by
    intro b
    constructor
    · rintro ⟨j, hj, hjb⟩
      cases j with
      | zero => omega
      | succ j2 =>
        rw [List.getElem?_cons_succ] at hjb
        exact List.mem_iff_getElem?.mpr ⟨j2, hjb⟩
    · intro hb
      obtain ⟨j, hj⟩ := List.mem_iff_getElem?.mp hb
      exact ⟨j + 1, by omega, by rw [List.getElem?_cons_succ]; exact hj⟩
  rw [List.getElem?_cons_zero, hmem '}', hmem ']']
  simp only [Option.some.injEq]

theorem findSpan_none_iff (cs : List Char) :
    findSpan cs = Option.none ↔ ¬ HasJsonSpan cs := by
  induction cs with
  | nil =>
    simp only [findSpan]
    constructor
    · rintro _ ⟨i, ⟨hi, _⟩ | ⟨hi, _⟩⟩ <;> simp at hi
    · intro _; trivial
  | cons c rest ih =>
    simp only [findSpan]
    by_cases h1 : c = '{' ∧ '}' ∈ rest
    · rw [if_pos h1]
      constructor
      · intro h
        exact absurd h (by simp)
      · intro h
        exact absurd ⟨0, (qualifiesAt_zero c rest).mpr (Or.inl h1)⟩ h
    · rw [if_neg h1]
      by_cases h2 : c = '[' ∧ ']' ∈ rest
      · rw [if_pos h2]
        constructor
        · intro h
          exact absurd h (by simp)
        · intro h
          exact absurd ⟨0, (qualifiesAt_zero c rest).mpr (Or.inr h2)⟩ h
      · rw [if_neg h2, ih]
        constructor
        · rintro h ⟨i, hi⟩
          cases i with
          | zero =>
            rcases (qualifiesAt_zero c rest).mp hi with hc | hc
            · exact h1 hc
            · exact h2 hc
          | succ i2 => exact h ⟨i2, (qualifiesAt_cons_succ c rest i2).mp hi⟩
        · rintro h ⟨i, hi⟩
          exact h ⟨i + 1, (qualifiesAt_cons_succ c rest i).mpr hi⟩

theorem takeUpToLast_spec (b : Char) (xs : List Char) (h : b ∈ xs) :
    ∃ j, xs[j]? = some b ∧ (∀ k, j < k → xs[k]? ≠ some b)
      ∧ takeUpToLast b xs = xs.take (j + 1) := by
  induction xs with
  | nil => simp at h
  | cons c rest ih =>
    by_cases hb : b ∈ rest
    · obtain ⟨j, hj1, hj2, hj3⟩ := ih hb
      refine ⟨j + 1, by rw [List.getElem?_cons_succ]; exact hj1, ?_, ?_⟩
      · intro k hk
        cases k with
        | zero => omega
        | succ k2 =>
          rw [List.getElem?_cons_succ]
          exact hj2 k2 (by omega)
      · simp only [takeUpToLast, if_pos hb, hj3, List.take_succ_cons]
    · have hcb : c = b := by
        rcases List.mem_cons.mp h with h1 | h1
        · exact h1.symm
        · exact absurd h1 hb
      refine ⟨0, by simp [hcb], ?_, ?_⟩
      · intro k hk
        cases k with
        | zero => omega
        | succ k2 =>
          rw [List.getElem?_cons_succ]
          intro hcontra
          exact hb (List.mem_iff_getElem?.mpr ⟨k2, hcontra⟩)
      · simp [takeUpToLast, hb, hcb]

/-- The shape the regex guarantees of a returned span: it starts at `i` on
an opening brace/bracket, runs to the last closer of the matching kind
(the greedy `.*`), and is the corresponding slice of the input. -/
def spanShape (cs : List Char) (i : Nat) (sp : List Char) : Prop :=
  (cs[i]? = some '{' ∧ ∃ j, i < j ∧ cs[j]? = some '}'
     ∧ (∀ k, j < k → cs[k]? ≠ some '}') ∧ sp = (cs.drop i).take (j - i + 1))
  ∨ (cs[i]? = some '[' ∧ ∃ j, i < j ∧ cs[j]? = some ']'
     ∧ (∀ k, j < k → cs[k]? ≠ some ']') ∧ sp = (cs.drop i).take (j - i + 1))

theorem findSpan_some_spec (cs : List Char) :
    ∀ sp, findSpan cs = some sp →
      ∃ i, (∀ k, k < i → ¬ qualifiesAt cs k) ∧ spanShape cs i sp := by
  induction cs with
  | nil => intro sp h; simp [findSpan] at h
  | cons c rest ih =>
    intro sp h
    simp only [findSpan] at h
    by_cases h1 : c = '{' ∧ '}' ∈ rest
    · rw [if_pos h1] at h
      obtain ⟨j, hj1, hj2, hj3⟩ := takeUpToLast_spec '}' rest h1.2
      refine ⟨0, by intro k hk; omega, Or.inl ⟨by simp [h1.1], j + 1, by omega,
        by rw [List.getElem?_cons_succ]; exact hj1, ?_, ?_⟩⟩
      · intro k hk
        cases k with
        | zero => omega
        | succ k2 =>
          rw [List.getElem?_cons_succ]
          exact hj2 k2 (by omega)
      · have hsp : sp = '{' :: takeUpToLast '}' rest := (Option.some.inj h).symm
        rw [hsp, hj3, h1.1]
        simp [List.take_succ_cons]
    · rw [if_neg h1] at h
      by_cases h2 : c = '[' ∧ ']' ∈ rest
      · rw [if_pos h2] at h
        obtain ⟨j, hj1, hj2, hj3⟩ := takeUpToLast_spec ']' rest h2.2
        refine ⟨0, by intro k hk; omega, Or.inr ⟨by simp [h2.1], j + 1, by omega,
          by rw [List.getElem?_cons_succ]; exact hj1, ?_, ?_⟩⟩
        · intro k hk
          cases k with
          | zero => omega
          | succ k2 =>
            rw [List.getElem?_cons_succ]
            exact hj2 k2 (by omega)
        · have hsp : sp = '[' :: takeUpToLast ']' rest := (Option.some.inj h).symm
          rw [hsp, hj3, h2.1]
          simp [List.take_succ_cons]
      · rw [if_neg h2] at h
        obtain ⟨i, hmin, hshape⟩ := ih sp h
        refine ⟨i + 1, ?_, ?_⟩
        · intro k hk
          cases k with
          | zero =>
            rw [qualifiesAt_zero]
            rintro (hc | hc)
            · exact h1 hc
            · exact h2 hc
          | succ k2 =>
            rw [qualifiesAt_cons_succ]
            exact hmin k2 (by omega)
        · unfold spanShape at hshape ⊢
          have hdrop : (c :: rest).drop (i + 1) = rest.drop i := List.drop_succ_cons
          rcases hshape with ⟨ha, j, hj, hb, hc, hd⟩ | ⟨ha, j, hj, hb, hc, hd⟩
          · refine Or.inl ⟨by rw [List.getElem?_cons_succ]; exact ha, j + 1, by omega,
              by rw [List.getElem?_cons_succ]; exact hb, ?_, ?_⟩
            · intro k hk
              cases k with
              | zero => omega
              | succ k2 =>
                rw [List.getElem?_cons_succ]
                exact hc k2 (by omega)
            · rw [hdrop]
              have : j + 1 - (i + 1) = j - i := by omega
              rw [this]
              exact hd
          · refine Or.inr ⟨by rw [List.getElem?_cons_succ]; exact ha, j + 1, by omega,
              by rw [List.getElem?_cons_succ]; exact hb, ?_, ?_⟩
            · intro k hk
              cases k with
              | zero => omega
              | succ k2 =>
                rw [List.getElem?_cons_succ]
                exact hc k2 (by omega)
            · rw [hdrop]
              have : j + 1 - (i + 1) = j - i := by omega
              rw [this]
              exact hd

/-- C6: `extract_json_from_text` fails with `NoJsonFound` exactly when the
input has no `{...}`/`[...]` span; when the leftmost-greedy search finds a
span, that span runs from the first qualifying opener to the last closer
of its kind, and the function applies the parse-with-repair contract
(direct `json.loads`, falling back to `scrub_and_parse_json_string`) to
exactly that span. -/
theorem claim_C6_extract_json (t : String) :
    (extract_json_from_text t = .error .noJsonFound ↔ ¬ HasJsonSpan t.data)
    ∧ (∀ sp, findSpan t.data = some sp →
        (∃ i, (∀ k, k < i → ¬ qualifiesAt t.data k) ∧ spanShape t.data i sp)
        ∧ extract_json_from_text t =
            (match loads ⟨sp⟩ with
             | .ok v => .ok v
             | .error _ =>
               match scrub_and_parse_json_string ⟨sp⟩ with
               | .ok v => .ok v
               | .error e => .error (.malformed e))) := by
  constructor
  · cases hf : findSpan t.data with
    | none =>
      simp only [extract_json_from_text, hf]
      exact iff_of_true trivial ((findSpan_none_iff t.data).mp hf)
    | some sp =>
      have hspan : HasJsonSpan t.data := by
        by_contra hcontra
        rw [← findSpan_none_iff] at hcontra
        rw [hf] at hcontra
        exact absurd hcontra (by simp)
      simp only [extract_json_from_text, hf]
      refine iff_of_false ?_ (not_not_intro hspan)
      cases loads ⟨sp⟩ with
      | ok v => simp
      | error e1 =>
        cases scrub_and_parse_json_string ⟨sp⟩ with
        | ok v => simp
        | error e2 => simp
  · intro sp hf
    refine ⟨findSpan_some_spec t.data sp hf, ?_⟩
    simp only [extract_json_from_text, hf]

/-- Witness for C6: applied at a text whose span parses directly. -/
theorem claim_C6_extract_json_witness :
    ((extract_json_from_text "see \x7b\"a\": 1\x7d ok" = .error .noJsonFound
        ↔ ¬ HasJsonSpan ("see \x7b\"a\": 1\x7d ok" : String).data)
      ∧ True)
    ∧ (∃ i, (∀ k, k < i → ¬ qualifiesAt ("see \x7b\"a\": 1\x7d ok" : String).data k)
          ∧ spanShape ("see \x7b\"a\": 1\x7d ok" : String).data i ("\x7b\"a\": 1\x7d" : String).data)
    ∧ extract_json_from_text "see \x7b\"a\": 1\x7d ok" = .ok (.dict [("a", .int 1)]) :=
  ⟨⟨(claim_C6_extract_json "see \x7b\"a\": 1\x7d ok").1, trivial⟩,
   (claim_C6_extract_json "see \x7b\"a\": 1\x7d ok").2 ("\x7b\"a\": 1\x7d" : String).data rfl⟩

/-! ## Claim C10 -/

/-- The one input shape `coerce_to_ingredient` cannot survive: a dict whose
`item_name`/`name` resolution is a truthy non-string. -/
def nameResolutionOk : PyVal → Prop
  | .dict kvs => ∃ s, nameOf kvs = .str s
  | _ => True

theorem coerceQuantity_shape (kvs : PyDict) :
    coerceQuantity kvs = .none ∨ ∃ x, coerceQuantity kvs = .float x := by
  simp only [coerceQuantity]
  split
  · left; rfl
  · split
    · right; exact ⟨_, rfl⟩
    · left; rfl

theorem coerceUnit_shape (kvs : PyDict) :
    coerceUnit kvs = .none
    ∨ ∃ t, coerceUnit kvs = .str t ∧ t ≠ "" ∧ noWsEnds t := by
  simp only [coerceUnit]
  split
  case _ s heq =>
    split
    · left; rfl
    case _ hne => exact Or.inr ⟨pyStrip s, rfl, hne, pyStrip_noWsEnds s⟩
  · left; rfl

/-- C10 counterexample: `coerce_to_ingredient` is not total — a dict whose
`item_name` is a (truthy) number reaches `item_name.strip()` and raises
`AttributeError`, which no handler catches. -/
theorem claim_C10_coerce_counterexample :
    coerce_to_ingredient (.dict [("item_name", .int 1)]) = .error "AttributeError" := rfl

/-- C10 (amended): for every input whose `item_name`/`name` resolution is
not a truthy non-string (in particular for every non-dict input),
`coerce_to_ingredient` returns a dictionary whose `quantity` is a float or
null, whose `unit` is a trimmed non-empty string or null, and whose
`item_name` is a non-empty string; blank or missing names default to
`"Unnamed ingredient"` for dict and string inputs and to
`"Unknown Ingredient"` for inputs of any other type. -/
theorem claim_C10_coerce_amended (item : PyVal) (h : nameResolutionOk item) :
    ∃ q u n, coerce_to_ingredient item =
        .ok [("quantity", q), ("unit", u), ("item_name", .str n)]
      ∧ (q = .none ∨ ∃ x, q = .float x)
      ∧ (u = .none ∨ ∃ t, u = .str t ∧ t ≠ "" ∧ noWsEnds t)
      ∧ n ≠ ""
      ∧ (∀ s, item = .str s → pyStrip s = "" → n = DEFAULT_INGREDIENT_NAME)
      ∧ (∀ kvs s, item = .dict kvs → nameOf kvs = .str s → pyStrip s = "" →
           n = DEFAULT_INGREDIENT_NAME)
      ∧ ((∀ kvs, item ≠ .dict kvs) → (∀ s, item ≠ .str s) →
           n = DEFAULT_UNKNOWN_INGREDIENT) := by
  match item, h with
  | .dict kvs, h =>
    obtain ⟨s, hs⟩ := h
    refine ⟨coerceQuantity kvs, coerceUnit kvs,
      if pyStrip s = "" then DEFAULT_INGREDIENT_NAME else pyStrip s, ?_,
      coerceQuantity_shape kvs, coerceUnit_shape kvs, ?_, ?_, ?_, ?_⟩
    · simp only [coerce_to_ingredient, hs]
    · split
      · intro hcontra
        simp [DEFAULT_INGREDIENT_NAME] at hcontra
      case _ hne => exact hne
    · intro s2 heq
      exact absurd heq (by simp)
    · intro kvs2 s2 heq hname hstrip
      rw [show kvs2 = kvs from (PyVal.dict.inj heq).symm] at hname
      rw [hs] at hname
      rw [show s = s2 from PyVal.str.inj hname]
      simp [hstrip]
    · intro hnotdict _
      exact absurd rfl (hnotdict kvs)
  | .str s, _ =>
    refine ⟨.none, .none,
      if pyStrip s = "" then DEFAULT_INGREDIENT_NAME else pyStrip s, rfl,
      Or.inl rfl, Or.inl rfl, ?_, ?_, ?_, ?_⟩
    · split
      · intro hcontra
        simp [DEFAULT_INGREDIENT_NAME] at hcontra
      case _ hne => exact hne
    · intro s2 heq hstrip
      rw [show s = s2 from PyVal.str.inj heq]
      simp [hstrip]
    · intro kvs2 s2 heq
      exact absurd heq (by simp)
    · intro _ hnotstr
      exact absurd rfl (hnotstr s)
  | .none, _ =>
    exact ⟨.none, .none, DEFAULT_UNKNOWN_INGREDIENT, rfl, Or.inl rfl, Or.inl rfl,
      by simp [DEFAULT_UNKNOWN_INGREDIENT], by intro s h; exact absurd h (by simp),
      by intro kvs s h; exact absurd h (by simp), fun _ _ => rfl⟩
  | .bool b, _ =>
    exact ⟨.none, .none, DEFAULT_UNKNOWN_INGREDIENT, rfl, Or.inl rfl, Or.inl rfl,
      by simp [DEFAULT_UNKNOWN_INGREDIENT], by intro s h; exact absurd h (by simp),
      by intro kvs s h; exact absurd h (by simp), fun _ _ => rfl⟩
  | .int n, _ =>
    exact ⟨.none, .none, DEFAULT_UNKNOWN_INGREDIENT, rfl, Or.inl rfl, Or.inl rfl,
      by simp [DEFAULT_UNKNOWN_INGREDIENT], by intro s h; exact absurd h (by simp),
      by intro kvs s h; exact absurd h (by simp), fun _ _ => rfl⟩
  | .float x, _ =>
    exact ⟨.none, .none, DEFAULT_UNKNOWN_INGREDIENT, rfl, Or.inl rfl, Or.inl rfl,
      by simp [DEFAULT_UNKNOWN_INGREDIENT], by intro s h; exact absurd h (by simp),
      by intro kvs s h; exact absurd h (by simp), fun _ _ => rfl⟩
  | .list xs, _ =>
    exact ⟨.none, .none, DEFAULT_UNKNOWN_INGREDIENT, rfl, Or.inl rfl, Or.inl rfl,
      by simp [DEFAULT_UNKNOWN_INGREDIENT], by intro s h; exact absurd h (by simp),
      by intro kvs s h; exact absurd h (by simp), fun _ _ => rfl⟩

/-- Witness for C10 (amended): applied to a concrete string ingredient. -/
theorem claim_C10_coerce_amended_witness :
    ∃ q u n, coerce_to_ingredient (.str " salt ") =
        .ok [("quantity", q), ("unit", u), ("item_name", .str n)]
      ∧ (q = .none ∨ ∃ x, q = .float x)
      ∧ (u = .none ∨ ∃ t, u = .str t ∧ t ≠ "" ∧ noWsEnds t)
      ∧ n ≠ ""
      ∧ (∀ s, PyVal.str " salt " = .str s → pyStrip s = "" → n = DEFAULT_INGREDIENT_NAME)
      ∧ (∀ kvs s, PyVal.str " salt " = .dict kvs → nameOf kvs = .str s → pyStrip s = "" →
           n = DEFAULT_INGREDIENT_NAME)
      ∧ ((∀ kvs, PyVal.str " salt " ≠ .dict kvs) → (∀ s, PyVal.str " salt " ≠ .str s) →
           n = DEFAULT_UNKNOWN_INGREDIENT) :=
  claim_C10_coerce_amended (.str " salt ") trivial

/-- Witness for C2 (amended): applied at the empty candidate dictionary. -/
theorem claim_C2_converter_amended_witness :
    ∃ r, convert_schema_org_to_internal_recipe 0 (.dict []) "http://u" = .ok r
      ∧ pyGet r "source" = .str "url_import_schema.org"
      ∧ pyGet r "recipeId" = .str (uuidHex 0)
      ∧ (pyTruthy (pyGet [] "name") = false →
           pyGet r "title" = .str DEFAULT_RECIPE_TITLE) :=
  claim_C2_converter_amended 0 [] "http://u" (Or.inl rfl) (Or.inl rfl) (Or.inl rfl)
    (Or.inl ⟨[], rfl⟩) trivial
example : pyStrip "  a b\t\n" = "a b" := rfl
example : dictSet [("a", .int 1), ("b", .int 2)] "a" (.int 9)
    = [("a", .int 9), ("b", .int 2)] := rfl
example : digitsToNat ['0', '3', '0'] = 30 := rfl

end Saucey
